import Mathlib

/-! stltool: command dispatch, input checks and reporting

A shallow embedding of `stltool.go` (package `main` of hschendel/stltool).

* The context `Run` and the parameters `Params` are the Go structs, field by field.
* Every method of `Run` is a function on `Run` that also returns the list of
  effects (`Event`) it performed: text written to stderr or stdout, calls into
  the `stl` library, reads and writes of files.
* A `nil` pointer is `none`; a method that dereferences a `nil` solid panics,
  which is the result `none` of a command.
* The `stl` library, `fmt.Sscanf` and floating point arithmetic are outside this
  repository: they are the fields of `Lib`, over which every theorem quantifies.
* `flag.Parse` is outside too: `Flags` is what it leaves behind (the value of
  each flag that was given, and the positional arguments).
-/

namespace Stltool

/-! ## Floating point values -/

/-- A float64 or float32 value: not-a-number, the two infinities, or a finite
value (the rationals contain every finite float; rounding is not modelled). -/
inductive GoFloat where
  | nan
  | negInf
  | posInf
  | fin (q : ℚ)
deriving DecidableEq

namespace GoFloat

/-- Go `a > b` on floats: false whenever an operand is NaN. -/
def gt : GoFloat → GoFloat → Bool
  | nan, _ => false
  | _, nan => false
  | posInf, posInf => false
  | posInf, _ => true
  | _, posInf => false
  | negInf, _ => false
  | fin _, negInf => true
  | fin a, fin b => decide (b < a)

/-- Go `a <= b` on floats: false whenever an operand is NaN. -/
def le : GoFloat → GoFloat → Bool
  | nan, _ => false
  | _, nan => false
  | negInf, _ => true
  | _, posInf => true
  | posInf, _ => false
  | fin _, negInf => false
  | fin a, fin b => decide (a ≤ b)

/-- Sign of a value that is not NaN: -1, 0 or 1. -/
def sign : GoFloat → ℤ
  | nan => 0
  | negInf => -1
  | posInf => 1
  | fin q => if q < 0 then -1 else if q = 0 then 0 else 1

/-- Addition, exact on finite values, IEEE 754 on NaN and the infinities. -/
def add : GoFloat → GoFloat → GoFloat
  | nan, _ => nan
  | _, nan => nan
  | posInf, negInf => nan
  | negInf, posInf => nan
  | posInf, _ => posInf
  | _, posInf => posInf
  | negInf, _ => negInf
  | _, negInf => negInf
  | fin a, fin b => fin (a + b)

/-- Multiplication, exact on finite values, IEEE 754 on NaN and the infinities. -/
def mul : GoFloat → GoFloat → GoFloat
  | nan, _ => nan
  | _, nan => nan
  | fin a, fin b => fin (a * b)
  | a, b =>
    if sign a * sign b = 0 then nan
    else if sign a * sign b < 0 then negInf else posInf

end GoFloat

/-! ## Types of the `stl` library used by `stltool.go` -/

/-- The type `stl.Vec3`, three float32 values. -/
structure Vec3 where
  x : GoFloat
  y : GoFloat
  z : GoFloat
deriving DecidableEq

/-- The type `stl.Vec4`, four float64 values. -/
structure Vec4 where
  x : GoFloat
  y : GoFloat
  z : GoFloat
  w : GoFloat
deriving DecidableEq

/-- The type `stl.Mat4`, four rows. -/
structure Mat4 where
  r0 : Vec4
  r1 : Vec4
  r2 : Vec4
  r3 : Vec4
deriving DecidableEq

/-- The type `stl.Triangle`: the stored normal and the three vertices. -/
structure Triangle where
  Normal : Vec3
  V0 : Vec3
  V1 : Vec3
  V2 : Vec3
deriving DecidableEq

/-- Vertex `e` of a triangle, for `e` in 0, 1, 2 (`Vertices[e]`). -/
def Triangle.Vertices (t : Triangle) (e : Nat) : Vec3 :=
  match e with
  | 0 => t.V0
  | 1 => t.V1
  | _ => t.V2

/-- The type `stl.Solid`: the fields `stltool.go` reads or writes. -/
structure Solid where
  Name : String
  IsAscii : Bool
  Triangles : List Triangle
deriving DecidableEq

/-- The type `stl.EdgeError`. -/
structure EdgeError where
  SameEdgeTriangles : List Int
  CounterEdgeTriangles : List Int
deriving DecidableEq

/-- The type `stl.TriangleErrors`; a `nil` edge error is `none`. -/
structure TriangleErrors where
  HasEqualVertices : Bool
  NormalDoesNotMatch : Bool
  E0 : Option EdgeError
  E1 : Option EdgeError
  E2 : Option EdgeError
deriving DecidableEq

/-- Entry `e` of `EdgeErrors`, for `e` in 0, 1, 2. -/
def TriangleErrors.EdgeErrors (t : TriangleErrors) (e : Nat) : Option EdgeError :=
  match e with
  | 0 => t.E0
  | 1 => t.E1
  | _ => t.E2

/-- The result of `Solid.Measure`. -/
structure Measure where
  Min : Vec3
  Max : Vec3
  Len : Vec3
deriving DecidableEq

/-- A Go `map[int]*TriangleErrors`, as the list of its entries in an arbitrary
order; a key is looked up with `List.lookup`. -/
abbrev ErrorsMap := List (Int × TriangleErrors)

/-- The built-in `len` of a map: the number of its keys. -/
def ErrorsMap.len (m : ErrorsMap) : Nat := (m.map Prod.fst).dedup.length

/-- Everything `stltool.go` calls that is not part of this repository. -/
structure Lib where
  /-- Conversion `float32(x)` of a float64. -/
  float32 : GoFloat → GoFloat
  /-- Float64 division `a / b`. -/
  fdiv : GoFloat → GoFloat → GoFloat
  /-- Float64 multiplication `a * b`. -/
  fmul : GoFloat → GoFloat → GoFloat
  /-- The constant `stl.TwoPi`. -/
  TwoPi : GoFloat
  /-- The call `fmt.Sscanf` with the matrix format: the number of values read,
  the error if any, and the matrix filled in. -/
  Sscanf : String → Nat × Option String × Mat4
  /-- The function `stl.ReadAll(os.Stdin)`: the error, or the solid. -/
  ReadAll : Except String Solid
  /-- The function `stl.ReadFile(name)`. -/
  ReadFile : String → Except String Solid
  /-- The method `Solid.WriteAll(os.Stdout)`: the error, if any. -/
  WriteAll : Solid → Option String
  /-- The method `Solid.WriteFile(name)`. -/
  WriteFile : String → Solid → Option String
  Scale : GoFloat → Solid → Solid
  Translate : Vec3 → Solid → Solid
  Rotate : Vec3 → Vec3 → GoFloat → Solid → Solid
  Transform : Mat4 → Solid → Solid
  ScaleLinearDowntoSizeBox : Vec3 → Solid → Solid
  RecalculateNormals : Solid → Solid
  Measure : Solid → Measure
  IsInPositive : Solid → Bool
  Validate : Solid → ErrorsMap
  RotationMatrix : Vec3 → Vec3 → GoFloat → Mat4
  IsUsedInOtherTriangles : EdgeError → Bool
  HasMultipleCounterEdges : EdgeError → Bool
  HasNoCounterEdge : EdgeError → Bool

/-! ## `Params` and `Run` -/

/-- Command line parameters (`type Params struct`). -/
structure Params where
  Command : String
  InputFile : String
  OutputFile : String
  OutputAscii : Bool
  OutputBinary : Bool
  ShowMatrix : Bool
  Fixnorm : Bool
  Angle : GoFloat
  PosX : GoFloat
  PosY : GoFloat
  PosZ : GoFloat
  DirX : GoFloat
  DirY : GoFloat
  DirZ : GoFloat
  Factor : GoFloat
  Matrix : Option Mat4
deriving DecidableEq

/-- The functions a `Run.Command` can point to. -/
inductive Handler where
  | Help
  | Copy
  | Measure
  | Scale
  | Translate
  | Rotate
  | FitBox
  | Transform
  | License
  | Validate
deriving DecidableEq

/-- Context for main (`type Run struct`). -/
structure Run where
  Params : Params
  Solid : Option Solid
  DoReadInput : Bool
  DoWriteOutput : Bool
  Command : Option Handler
  ExitCode : Int
deriving DecidableEq

/-- The zero value of `Params`. -/
def Params.zero : Params :=
  { Command := "", InputFile := "", OutputFile := "", OutputAscii := false,
    OutputBinary := false, ShowMatrix := false, Fixnorm := false,
    Angle := .fin 0, PosX := .fin 0, PosY := .fin 0, PosZ := .fin 0,
    DirX := .fin 0, DirY := .fin 0, DirZ := .fin 0, Factor := .fin 0,
    Matrix := none }

/-- The zero value of `Run` (`var run Run`). -/
def Run.zero : Run :=
  { Params := Params.zero, Solid := none, DoReadInput := false,
    DoWriteOutput := false, Command := none, ExitCode := 0 }

/-! ## Effects -/

/-- The fixed texts written to stderr. -/
inductive Msg where
  | filenameForbidsFlags
  | noCommand
  | tooManyArguments
  | asciiBinaryExclusive
  | cannotRead (param : String) (err : String)
  | error (err : String)
  | helpText
  | licenseText
  | axisNotSet
  | noMatrix
  | boxNotDefined
  | unknownCommand
deriving DecidableEq

/-- The lines written to stdout by `Measure` and `Validate`. -/
inductive Out where
  | axisLength (axis : String) (len min max : GoFloat)
  | negativeCoordinates
  | inTriangle (index : Nat) (bytePos : Option Nat) (v0 v1 v2 : Vec3)
  | identicalVertices
  | normalNotCalculable
  | inEdge (e : Nat) (a b : Vec3)
  | alsoUsedInTriangle (t : Int)
  | alsoUsedInTriangles (ts : List Int)
  | multipleCounterEdges (ts : List Int)
  | noCounterEdge (a b : Vec3)
  | errorsFound (n total : Nat)
deriving DecidableEq

/-- One effect of the program on the outside, or one call into the library. -/
inductive Event where
  | stderr (m : Msg)
  | stderrMat4 (m : Mat4)
  | printDefaults
  | stdout (o : Out)
  | readAll
  | readFile (name : String)
  | writeAll (s : Solid)
  | writeFile (name : String) (s : Solid)
  | solidScale (f : GoFloat)
  | solidTranslate (v : Vec3)
  | solidRotate (p d : Vec3) (a : GoFloat)
  | solidTransform (m : Mat4)
  | solidScaleLinearDowntoSizeBox (v : Vec3)
  | solidRecalculateNormals
  | solidMeasure
  | solidIsInPositive
  | solidValidate
deriving DecidableEq

/-- What `flag.Parse` leaves behind: for each flag the value given on the command
line (`none` when the flag is absent) and the positional arguments. -/
structure Flags where
  i : Option String
  o : Option String
  ascii : Option Bool
  binary : Option Bool
  showmat : Option Bool
  fixnorm : Option Bool
  a : Option GoFloat
  x : Option GoFloat
  y : Option GoFloat
  z : Option GoFloat
  dx : Option GoFloat
  dy : Option GoFloat
  dz : Option GoFloat
  f : Option GoFloat
  m : Option String
  args : List String

/-! ## Reading the parameters -/

/-- The flag `name` as `flag.Parse` stores it: the given value or the default. -/
def flagValue {α : Type} (given : Option α) (dflt : α) : α := given.getD dflt

/-- The method `Run.parseMat4`: `nil` for the empty string, for a scan error
(reported on stderr) and when nothing was read. -/
def Run.parseMat4 (lib : Lib) (param s : String) : Option Mat4 × List Event :=
  if s = "" then (none, [])
  else
    if (lib.Sscanf s).2.1.isSome then
      (none, [.stderr (.cannotRead param ((lib.Sscanf s).2.1.getD ""))])
    else if (lib.Sscanf s).1 = 0 then (none, [])
    else (some (lib.Sscanf s).2.2, [])

/-- The positional argument `flag.Arg(i)`: empty when there is none. -/
def Flags.Arg (fl : Flags) (i : Nat) : String := fl.args.getD i ""

/-- The number of positional arguments `flag.NArg()`. -/
def Flags.NArg (fl : Flags) : Nat := fl.args.length

/-- The flags copied into `Params` with their defaults, and the matrix parsed
(`ParseParams` up to and including the call of `parseMat4`). -/
def Run.readFlags (lib : Lib) (fl : Flags) (run : Run) : Run :=
  { run with Params :=
    { run.Params with
      InputFile := flagValue fl.i "",
      OutputFile := flagValue fl.o "",
      OutputAscii := flagValue fl.ascii false,
      OutputBinary := flagValue fl.binary false,
      ShowMatrix := flagValue fl.showmat false,
      Fixnorm := flagValue fl.fixnorm false,
      Angle := flagValue fl.a (.fin 90),
      PosX := flagValue fl.x (.fin 0),
      PosY := flagValue fl.y (.fin 0),
      PosZ := flagValue fl.z (.fin 0),
      DirX := flagValue fl.dx (.fin 0),
      DirY := flagValue fl.dy (.fin 0),
      DirZ := flagValue fl.dz (.fin 0),
      Factor := flagValue fl.f (.fin 1),
      Matrix := (Run.parseMat4 lib "-m"
        (flagValue fl.m "[[1 0 0 0] [0 1 0 0] [0 0 1 0] [0 0 0 1]]")).1 } }

/-- Sets `Params.Command` to help and the exit code, reporting `msg`. -/
def Run.usageError (run : Run) (msg : Msg) (code : Int) : Run × List Event :=
  ({ run with Params := { run.Params with Command := "help" }, ExitCode := code },
   [.stderr msg])

/-- The positional arguments of `ParseParams`: the command and the optional
filename, or a usage error. -/
def Run.readArgs (fl : Flags) (run : Run) : Run × List Event :=
  if fl.NArg = 1 ∨ fl.NArg = 2 then
    if fl.NArg = 2 then
      if run.Params.InputFile ≠ "" ∨ run.Params.OutputFile ≠ "" then
        ({ run with Params := { run.Params with Command := fl.Arg 0 } }).usageError
          .filenameForbidsFlags 15
      else
        ({ run with Params := { run.Params with
            Command := fl.Arg 0, InputFile := fl.Arg 1, OutputFile := fl.Arg 1 } }, [])
    else
      ({ run with Params := { run.Params with Command := fl.Arg 0 } }, [])
  else if fl.NArg = 0 then
    run.usageError .noCommand 10
  else if fl.NArg > 2 then
    run.usageError .tooManyArguments 13
  else (run, [])

/-- The last check of `ParseParams`: `-ascii` and `-binary` are exclusive. -/
def Run.checkFormat (run : Run) : Run × List Event :=
  if run.Params.OutputAscii && run.Params.OutputBinary then
    run.usageError .asciiBinaryExclusive 12
  else (run, [])

/-- The method `Run.ParseParams`. -/
def Run.ParseParams (lib : Lib) (fl : Flags) (run : Run) : Run × List Event :=
  ((Run.readArgs fl (Run.readFlags lib fl run)).1.checkFormat.1,
   (Run.parseMat4 lib "-m"
      (flagValue fl.m "[[1 0 0 0] [0 1 0 0] [0 0 1 0] [0 0 0 1]]")).2
    ++ (Run.readArgs fl (Run.readFlags lib fl run)).2
    ++ (Run.readArgs fl (Run.readFlags lib fl run)).1.checkFormat.2)

/-! ## Reading and writing the solid -/

/-- The method `Run.ReadInput`: the context, the effects, and whether the solid
was read. -/
def Run.ReadInput (lib : Lib) (run : Run) : Run × List Event × Bool :=
  if run.Params.InputFile = "" then
    match lib.ReadAll with
    | .ok s => ({ run with Solid := some s }, [.readAll], true)
    | .error e =>
      ({ run with Solid := none, ExitCode := 40 }, [.readAll, .stderr (.error e)], false)
  else
    match lib.ReadFile run.Params.InputFile with
    | .ok s => ({ run with Solid := some s }, [.readFile run.Params.InputFile], true)
    | .error e =>
      ({ run with Solid := none, ExitCode := 40 },
       [.readFile run.Params.InputFile, .stderr (.error e)], false)

/-- The solid as `WriteOutput` hands it to the encoder: `IsAscii` follows
`-ascii`, else `-binary`, else is left as read. -/
def Run.outputSolid (run : Run) (s : Stltool.Solid) : Stltool.Solid :=
  if run.Params.OutputAscii then { s with IsAscii := true }
  else if run.Params.OutputBinary then { s with IsAscii := false }
  else s

/-- The method `Run.WriteOutput`; `none` when the solid is `nil`. -/
def Run.WriteOutput (lib : Lib) (run : Run) : Option (Run × List Event × Bool) :=
  match run.Solid with
  | none => none
  | some s =>
    if run.Params.OutputFile = "" then
      match lib.WriteAll (run.outputSolid s) with
      | some e =>
        some ({ run with Solid := some (run.outputSolid s), ExitCode := 50 },
          [.writeAll (run.outputSolid s), .stderr (.error e)], false)
      | none =>
        some ({ run with Solid := some (run.outputSolid s) },
          [.writeAll (run.outputSolid s)], true)
    else
      match lib.WriteFile run.Params.OutputFile (run.outputSolid s) with
      | some e =>
        some ({ run with Solid := some (run.outputSolid s), ExitCode := 50 },
          [.writeFile run.Params.OutputFile (run.outputSolid s), .stderr (.error e)], false)
      | none =>
        some ({ run with Solid := some (run.outputSolid s) },
          [.writeFile run.Params.OutputFile (run.outputSolid s)], true)

/-! ## The commands

A command returns the context it leaves and its effects; `none` is the panic of
a call on a `nil` solid. -/

/-- The method `Run.Help`. -/
def Run.Help (run : Run) : Option (Run × List Event) :=
  some ({ run with DoWriteOutput := false }, [.stderr .helpText, .printDefaults])

/-- The method `Run.Measure`. -/
def Run.Measure (lib : Lib) (run : Run) : Option (Run × List Event) :=
  match run.Solid with
  | none => none
  | some s =>
    some (run,
      [ .solidMeasure,
        .stdout (.axisLength "X" (lib.Measure s).Len.x (lib.Measure s).Min.x (lib.Measure s).Max.x),
        .stdout (.axisLength "Y" (lib.Measure s).Len.y (lib.Measure s).Min.y (lib.Measure s).Max.y),
        .stdout (.axisLength "Z" (lib.Measure s).Len.z (lib.Measure s).Min.z (lib.Measure s).Max.z) ])

/-- The matrix `Run.Scale` prints. -/
def scaleMatrix (f : GoFloat) : Mat4 :=
  { r0 := ⟨f, .fin 0, .fin 0, .fin 0⟩,
    r1 := ⟨.fin 0, f, .fin 0, .fin 0⟩,
    r2 := ⟨.fin 0, .fin 0, f, .fin 0⟩,
    r3 := ⟨.fin 0, .fin 0, .fin 0, .fin 1⟩ }

/-- The matrix `Run.Translate` prints. -/
def translateMatrix (x y z : GoFloat) : Mat4 :=
  { r0 := ⟨.fin 1, .fin 0, .fin 0, x⟩,
    r1 := ⟨.fin 0, .fin 1, .fin 0, y⟩,
    r2 := ⟨.fin 0, .fin 0, .fin 1, z⟩,
    r3 := ⟨.fin 0, .fin 0, .fin 0, .fin 1⟩ }

/-- The vector `stl.Vec3{float32(PosX), float32(PosY), float32(PosZ)}`. -/
def Run.posVec (lib : Lib) (run : Run) : Vec3 :=
  ⟨lib.float32 run.Params.PosX, lib.float32 run.Params.PosY, lib.float32 run.Params.PosZ⟩

/-- The vector `stl.Vec3{float32(DirX), float32(DirY), float32(DirZ)}`. -/
def Run.dirVec (lib : Lib) (run : Run) : Vec3 :=
  ⟨lib.float32 run.Params.DirX, lib.float32 run.Params.DirY, lib.float32 run.Params.DirZ⟩

/-- The angle `run.Params.Angle / 360 * stl.TwoPi`. -/
def Run.angleRad (lib : Lib) (run : Run) : GoFloat :=
  lib.fmul (lib.fdiv run.Params.Angle (.fin 360)) lib.TwoPi

/-- The method `Run.Scale`. -/
def Run.Scale (lib : Lib) (run : Run) : Option (Run × List Event) :=
  match run.Solid with
  | none => none
  | some s =>
    some ({ run with Solid := some (lib.Scale run.Params.Factor s), DoWriteOutput := true },
      .solidScale run.Params.Factor ::
        (if run.Params.ShowMatrix then [.stderrMat4 (scaleMatrix run.Params.Factor)] else []))

/-- The method `Run.Translate`. -/
def Run.Translate (lib : Lib) (run : Run) : Option (Run × List Event) :=
  match run.Solid with
  | none => none
  | some s =>
    some ({ run with Solid := some (lib.Translate (run.posVec lib) s), DoWriteOutput := true },
      .solidTranslate (run.posVec lib) ::
        (if run.Params.ShowMatrix then
          [.stderrMat4 (translateMatrix run.Params.PosX run.Params.PosY run.Params.PosZ)]
         else []))

/-- The method `Run.Rotate`. -/
def Run.Rotate (lib : Lib) (run : Run) : Option (Run × List Event) :=
  if !(run.Params.DirX.gt (.fin 0) || run.Params.DirY.gt (.fin 0)
        || run.Params.DirZ.gt (.fin 0)) then
    some ({ run with ExitCode := 20 }, [.stderr .axisNotSet])
  else
    match run.Solid with
    | none => none
    | some s =>
      some ({ run with
          Solid := some (lib.Rotate (run.posVec lib) (run.dirVec lib) (run.angleRad lib) s),
          DoWriteOutput := true },
        .solidRotate (run.posVec lib) (run.dirVec lib) (run.angleRad lib) ::
          (if run.Params.ShowMatrix then
            [.stderrMat4 (lib.RotationMatrix (run.posVec lib) (run.dirVec lib) (run.angleRad lib))]
           else []))

/-- The method `Run.Transform`. -/
def Run.Transform (lib : Lib) (run : Run) : Option (Run × List Event) :=
  match run.Params.Matrix with
  | none => some ({ run with ExitCode := 22 }, [.stderr .noMatrix])
  | some m =>
    match run.Solid with
    | none => none
    | some s =>
      some ({ run with Solid := some (lib.Transform m s), DoWriteOutput := true },
        .solidTransform m :: (if run.Params.ShowMatrix then [.stderrMat4 m] else []))

/-- The method `Run.Copy`. -/
def Run.Copy (run : Run) : Option (Run × List Event) :=
  some ({ run with DoWriteOutput := true }, [])

/-- The method `Run.FitBox`. -/
def Run.FitBox (lib : Lib) (run : Run) : Option (Run × List Event) :=
  if !(run.Params.PosX.gt (.fin 0) && run.Params.PosY.gt (.fin 0)
        && run.Params.PosZ.gt (.fin 0)) then
    some ({ run with ExitCode := 21 }, [.stderr .boxNotDefined])
  else
    match run.Solid with
    | none => none
    | some s =>
      some ({ run with Solid := some (lib.ScaleLinearDowntoSizeBox (run.posVec lib) s),
                       DoWriteOutput := true },
        [.solidScaleLinearDowntoSizeBox (run.posVec lib)])

/-- The method `Run.License`. -/
def Run.License (run : Run) : Option (Run × List Event) :=
  some (run, [.stderr .licenseText])

/-- The method `Run.Fixnorm`. -/
def Run.Fixnorm (lib : Lib) (run : Run) : Option (Run × List Event) :=
  match run.Solid with
  | none => none
  | some s => some ({ run with Solid := some (lib.RecalculateNormals s) }, [.solidRecalculateNormals])

/-! ## Validation report -/

/-- The lines `Run.Validate` prints for edge `e` of triangle `t`, given
`EdgeErrors[e]`. -/
def edgeLines (lib : Lib) (t : Triangle) (e : Nat) (edgeError : Option EdgeError) :
    List Out :=
  match edgeError with
  | none => []
  | some err =>
    [.inEdge e (t.Vertices e) (t.Vertices ((e + 1) % 3))]
    ++ (if lib.IsUsedInOtherTriangles err then
          match err.SameEdgeTriangles with
          | [i] => [.alsoUsedInTriangle i]
          | is => [.alsoUsedInTriangles is]
        else [])
    ++ (if lib.HasMultipleCounterEdges err then
          [.multipleCounterEdges err.CounterEdgeTriangles]
        else if lib.HasNoCounterEdge err then
          [.noCounterEdge (t.Vertices ((e + 1) % 3)) (t.Vertices e)]
        else [])

/-- The body of the loop of `Run.Validate` for `triangleIndex` and the triangle
at that index: nothing when the map has no entry for the index. -/
def triangleLines (lib : Lib) (isAscii : Bool) (m : ErrorsMap) (triangleIndex : Nat)
    (t : Triangle) : List Out :=
  match m.lookup (triangleIndex : Int) with
  | none => []
  | some triangleErrors =>
    [.inTriangle triangleIndex (if !isAscii then some (84 + 50 * triangleIndex) else none)
        (t.Vertices 0) (t.Vertices 1) (t.Vertices 2)]
    ++ (if triangleErrors.HasEqualVertices then [.identicalVertices] else [])
    ++ (if triangleErrors.NormalDoesNotMatch then [.normalNotCalculable] else [])
    ++ edgeLines lib t 0 (triangleErrors.EdgeErrors 0)
    ++ edgeLines lib t 1 (triangleErrors.EdgeErrors 1)
    ++ edgeLines lib t 2 (triangleErrors.EdgeErrors 2)

/-- The loop `for triangleIndex := range run.Solid.Triangles`, from index `i` on
with the triangles `ts` still to visit. -/
def validateLoop (lib : Lib) (isAscii : Bool) (m : ErrorsMap) :
    Nat → List Triangle → List Out
  | _, [] => []
  | i, t :: ts => triangleLines lib isAscii m i t ++ validateLoop lib isAscii m (i + 1) ts

/-- What `Run.Validate` prints before it calls `Solid.Validate`. -/
def positiveLines (lib : Lib) (s : Solid) : List Out :=
  if !lib.IsInPositive s then [.negativeCoordinates] else []

/-- What `Run.Validate` prints for the report `m` of `Solid.Validate`: the loop
over the triangles, then the summary. -/
def reportLines (lib : Lib) (s : Solid) (m : ErrorsMap) : List Out :=
  validateLoop lib s.IsAscii m 0 s.Triangles
  ++ (if m.len ≠ 0 then [.errorsFound m.len s.Triangles.length] else [])

/-- The method `Run.Validate`. -/
def Run.Validate (lib : Lib) (run : Run) : Option (Run × List Event) :=
  match run.Solid with
  | none => none
  | some s =>
    some (run,
      .solidIsInPositive :: ((positiveLines lib s).map .stdout
        ++ .solidValidate :: (reportLines lib s (lib.Validate s)).map .stdout))

/-! ## Dispatch and `main` -/

/-- The method `Run.SetCommand`. -/
def Run.SetCommand (run : Run) : Run × List Event :=
  if run.Params.Command = "help" then
    ({ run with Command := some .Help, DoReadInput := false }, [])
  else if run.Params.Command = "copy" then
    ({ run with Command := some .Copy }, [])
  else if run.Params.Command = "measure" then
    ({ run with Command := some .Measure }, [])
  else if run.Params.Command = "scale" then
    ({ run with Command := some .Scale }, [])
  else if run.Params.Command = "translate" then
    ({ run with Command := some .Translate }, [])
  else if run.Params.Command = "rotate" then
    ({ run with Command := some .Rotate }, [])
  else if run.Params.Command = "fitbox" then
    ({ run with Command := some .FitBox }, [])
  else if run.Params.Command = "transform" then
    ({ run with Command := some .Transform }, [])
  else if run.Params.Command = "license" then
    ({ run with Command := some .License, DoReadInput := false }, [])
  else if run.Params.Command = "validate" then
    ({ run with Command := some .Validate }, [])
  else
    ({ run with Command := some .Help, DoReadInput := false, ExitCode := 11 },
     [.stderr .unknownCommand])

/-- The function a handler stands for. -/
def Handler.call (lib : Lib) (h : Handler) (run : Run) : Option (Run × List Event) :=
  match h with
  | .Help => run.Help
  | .Copy => run.Copy
  | .Measure => run.Measure lib
  | .Scale => run.Scale lib
  | .Translate => run.Translate lib
  | .Rotate => run.Rotate lib
  | .FitBox => run.FitBox lib
  | .Transform => run.Transform lib
  | .License => run.License
  | .Validate => run.Validate lib

/-- The method `Run.ExecCommand`; calling a `nil` function panics. -/
def Run.ExecCommand (lib : Lib) (run : Run) : Option (Run × List Event) :=
  match run.Command with
  | none => none
  | some h => h.call lib run

/-- How the process ends: `os.Exit(code)` or a panic. -/
inductive Termination where
  | exit (code : Int)
  | panic
deriving DecidableEq

/-- A complete run: the effects in order, how it ended, the context at the end. -/
structure Result where
  events : List Event
  status : Termination
  run : Run

/-- The end of `main`, after `ExecCommand`: the optional `Fixnorm` and
`WriteOutput`, then `os.Exit(run.ExitCode)`. -/
def finish (lib : Lib) (run : Run) (ev : List Event) : Result :=
  if run.DoWriteOutput then
    match (if run.Params.Fixnorm then run.Fixnorm lib else some (run, [])) with
    | none => ⟨ev, .panic, run⟩
    | some r1 =>
      match r1.1.WriteOutput lib with
      | none => ⟨ev ++ r1.2, .panic, r1.1⟩
      | some r2 => ⟨ev ++ r1.2 ++ r2.2.1, .exit r2.1.ExitCode, r2.1⟩
  else ⟨ev, .exit run.ExitCode, run⟩

/-- The part of `main` from `ExecCommand` on. -/
def execute (lib : Lib) (run : Run) (ev : List Event) : Result :=
  match run.ExecCommand lib with
  | none => ⟨ev, .panic, run⟩
  | some r => finish lib r.1 (ev ++ r.2)

/-- The context when `main` has parsed the parameters and set the command. -/
def prepared (lib : Lib) (fl : Flags) : Run × List Event :=
  (({ (Run.zero.ParseParams lib fl).1 with DoReadInput := true }).SetCommand.1,
   (Run.zero.ParseParams lib fl).2
    ++ ({ (Run.zero.ParseParams lib fl).1 with DoReadInput := true }).SetCommand.2)

/-- The function `main`, on what `flag.Parse` read from the command line. -/
def main (lib : Lib) (fl : Flags) : Result :=
  if (prepared lib fl).1.DoReadInput then
    if !((prepared lib fl).1.ReadInput lib).2.2 then
      ⟨(prepared lib fl).2 ++ ((prepared lib fl).1.ReadInput lib).2.1,
       .exit ((prepared lib fl).1.ReadInput lib).1.ExitCode,
       ((prepared lib fl).1.ReadInput lib).1⟩
    else
      execute lib ((prepared lib fl).1.ReadInput lib).1
        ((prepared lib fl).2 ++ ((prepared lib fl).1.ReadInput lib).2.1)
  else execute lib (prepared lib fl).1 (prepared lib fl).2

/-- The context when `main` has called `ReadInput`, the effects of the call, and
its result. -/
def loaded (lib : Lib) (fl : Flags) : Run × List Event × Bool :=
  (prepared lib fl).1.ReadInput lib

/-! ## Reading the effects -/

/-- The calls that change the solid: the five transformations and
`RecalculateNormals`. -/
def Event.isMutation : Event → Bool
  | .solidScale _ => true
  | .solidTranslate _ => true
  | .solidRotate _ _ _ => true
  | .solidTransform _ => true
  | .solidScaleLinearDowntoSizeBox _ => true
  | .solidRecalculateNormals => true
  | _ => false

/-- The five transformations, without `RecalculateNormals`. -/
def Event.isTransformation : Event → Bool
  | .solidRecalculateNormals => false
  | e => e.isMutation

/-- The calls of `WriteOutput`. -/
def Event.isWrite : Event → Bool
  | .writeAll _ => true
  | .writeFile _ _ => true
  | _ => false

/-- The calls of `ReadInput`. -/
def Event.isRead : Event → Bool
  | .readAll => true
  | .readFile _ => true
  | _ => false

/-- The matrices printed to stderr, in order. -/
def matrices (ev : List Event) : List Mat4 :=
  ev.filterMap fun e => match e with
    | .stderrMat4 m => some m
    | _ => none

/-- The triangle indices of the defect blocks printed, in order. -/
def blockIndices (ev : List Event) : List Nat :=
  ev.filterMap fun e => match e with
    | .stdout (.inTriangle i _ _ _ _) => some i
    | _ => none

/-! ## Matrices as the specification reads them -/

/-- Modelled from the spec: the identity of `stl.Mat4` (the library is not part
of this repository), the 4x4 matrix with ones on the diagonal. -/
def Mat4.identity : Mat4 :=
  { r0 := ⟨.fin 1, .fin 0, .fin 0, .fin 0⟩,
    r1 := ⟨.fin 0, .fin 1, .fin 0, .fin 0⟩,
    r2 := ⟨.fin 0, .fin 0, .fin 1, .fin 0⟩,
    r3 := ⟨.fin 0, .fin 0, .fin 0, .fin 1⟩ }

/-- Modelled from the spec: the product of a row of a matrix and a column vector. -/
def Vec4.dot (r v : Vec4) : GoFloat :=
  ((((r.x.mul v.x).add (r.y.mul v.y)).add (r.z.mul v.z)).add (r.w.mul v.w))

/-- Modelled from the spec: a row-major 4x4 matrix times a column vector
(the library is not part of this repository). -/
def Mat4.mulVec (m : Mat4) (v : Vec4) : Vec4 :=
  ⟨m.r0.dot v, m.r1.dot v, m.r2.dot v, m.r3.dot v⟩

/-! ## A concrete instance

The library as a parameter makes every theorem hold for the real library. To
evaluate the model on examples, the instance below supplies simple total
functions for it. -/

/-- A solid of three triangles. -/
def sampleSolid : Solid :=
  { Name := "sample", IsAscii := false,
    Triangles :=
      [ ⟨⟨.fin 0, .fin 0, .fin 1⟩, ⟨.fin 0, .fin 0, .fin 0⟩, ⟨.fin 1, .fin 0, .fin 0⟩,
          ⟨.fin 0, .fin 1, .fin 0⟩⟩,
        ⟨⟨.fin 0, .fin 0, .fin 1⟩, ⟨.fin 1, .fin 0, .fin 0⟩, ⟨.fin 1, .fin 1, .fin 0⟩,
          ⟨.fin 0, .fin 1, .fin 0⟩⟩,
        ⟨⟨.fin 0, .fin 0, .fin 1⟩, ⟨.fin 1, .fin 1, .fin 0⟩, ⟨.fin 1, .fin 1, .fin 0⟩,
          ⟨.fin 2, .fin 1, .fin 0⟩⟩ ] }

/-- A defect record: equal vertices and a hole at edge 0. -/
def sampleErrors : TriangleErrors :=
  { HasEqualVertices := true, NormalDoesNotMatch := false,
    E0 := some ⟨[], []⟩, E1 := none, E2 := none }

/-- The vertices of a triangle changed by `f`, the normal kept. -/
def Triangle.mapVertices (f : Vec3 → Vec3) (t : Triangle) : Triangle :=
  { t with V0 := f t.V0, V1 := f t.V1, V2 := f t.V2 }

/-- The vertices of every triangle of a solid changed by `f`. -/
def Solid.mapVertices (s : Solid) (f : Vec3 → Vec3) : Solid :=
  { s with Triangles := s.Triangles.map (Triangle.mapVertices f) }

/-- A library instance with exact arithmetic: scaling and translation act on
the vertices, the other transformations leave the solid as it is, input is
always `sampleSolid`, and the report has entries for the keys 2, 0 and 7. -/
def sampleLib : Lib :=
  { float32 := id
    fdiv := fun a _ => a
    fmul := GoFloat.mul
    TwoPi := .fin (710 / 113)
    Sscanf := fun _ => (16, none, Mat4.identity)
    ReadAll := .ok sampleSolid
    ReadFile := fun _ => .ok sampleSolid
    WriteAll := fun _ => none
    WriteFile := fun _ _ => none
    Scale := fun f s => s.mapVertices fun v => ⟨f.mul v.x, f.mul v.y, f.mul v.z⟩
    Translate := fun o s => s.mapVertices fun v => ⟨v.x.add o.x, v.y.add o.y, v.z.add o.z⟩
    Rotate := fun _ _ _ s => s
    Transform := fun _ s => s
    ScaleLinearDowntoSizeBox := fun _ s => s
    RecalculateNormals := fun s => s
    Measure := fun _ => ⟨⟨.fin 0, .fin 0, .fin 0⟩, ⟨.fin 2, .fin 1, .fin 0⟩, ⟨.fin 2, .fin 1, .fin 0⟩⟩
    IsInPositive := fun _ => true
    Validate := fun _ => [(2, sampleErrors), (0, sampleErrors), (7, sampleErrors)]
    RotationMatrix := fun _ _ _ => Mat4.identity
    IsUsedInOtherTriangles := fun e => e.SameEdgeTriangles.length != 0
    HasMultipleCounterEdges := fun e => decide (1 < e.CounterEdgeTriangles.length)
    HasNoCounterEdge := fun e => e.CounterEdgeTriangles.length == 0 }

/-- The flags of a command line that gives only the command `cmd`. -/
def Flags.command (cmd : String) : Flags :=
  { i := none, o := none, ascii := none, binary := none, showmat := none,
    fixnorm := none, a := none, x := none, y := none, z := none, dx := none,
    dy := none, dz := none, f := none, m := none, args := [cmd] }

/-- The context of a run that has read `sampleSolid`, with the given parameters. -/
def sampleRun (p : Params) : Run :=
  { Run.zero with Params := p, Solid := some sampleSolid, DoReadInput := true }

/-- The conversion `float32(x)` as far as the range of float32 goes: a value of
magnitude 2^128 or more becomes an infinity, a value of magnitude 2^-150 or less
becomes zero, NaN and the infinities stay. Values in between are kept: the
rounding of the mantissa is not modelled. -/
def float32Range (a : GoFloat) : GoFloat :=
  match a with
  | .fin q =>
    if 2 ^ 128 ≤ q then .posInf
    else if q ≤ -(2 ^ 128) then .negInf
    else if -(1 / 2 ^ 150) ≤ q ∧ q ≤ 1 / 2 ^ 150 then .fin 0
    else .fin q
  | b => b

/-- The sample library with the conversion to float32 limited to its range. -/
def rangeLib : Lib := { sampleLib with float32 := float32Range }

/-- The parameters of `-x 2^128 -y 5 -z 2^-151`: three sizes greater than zero,
the first above and the last below the range of float32. -/
def wideBox : Params :=
  { Params.zero with PosX := .fin (2 ^ 128), PosY := .fin 5, PosZ := .fin (1 / 2 ^ 151) }

/-! ## Comparison with zero -/

/-- A value is greater than zero exactly when it is positive infinity or a
positive finite value; NaN is not. -/
theorem GoFloat.gt_zero_iff (a : GoFloat) :
    a.gt (.fin 0) = true ↔ a = .posInf ∨ ∃ q : ℚ, a = .fin q ∧ 0 < q := by
  cases a <;> simp [GoFloat.gt]

/-- A value is at most zero exactly when it is negative infinity or a finite
value that is not positive; NaN is not. -/
theorem GoFloat.le_zero_iff (a : GoFloat) :
    a.le (.fin 0) = true ↔ a = .negInf ∨ ∃ q : ℚ, a = .fin q ∧ q ≤ 0 := by
  cases a <;> simp [GoFloat.le]

/-! ## The input checks of rotate, fitbox and transform -/

/-- C1: `Run.Rotate` fails (exit code 20, no call of `Solid.Rotate`,
`DoWriteOutput` left as it was) if and only if none of `DirX`, `DirY`, `DirZ`
is greater than zero. The axis (-1, 0, 0) is rejected. With a solid loaded,
every axis with a component greater than zero is accepted: `Solid.Rotate` is
called on the solid and `DoWriteOutput` becomes true. -/
theorem Rotate_fails_iff_no_positive_component (lib : Lib) (run : Run) :
    ((∃ r, run.Rotate lib = some r ∧ r.1.ExitCode = 20 ∧
          (∀ p d a, Event.solidRotate p d a ∉ r.2) ∧
          r.1.DoWriteOutput = run.DoWriteOutput ∧ r.1.Solid = run.Solid)
      ↔ ¬ (run.Params.DirX.gt (.fin 0) = true ∨ run.Params.DirY.gt (.fin 0) = true
            ∨ run.Params.DirZ.gt (.fin 0) = true))
    ∧ (run.Params.DirX = .fin (-1) → run.Params.DirY = .fin 0 → run.Params.DirZ = .fin 0 →
        run.Rotate lib = some ({ run with ExitCode := 20 }, [.stderr .axisNotSet]))
    ∧ (∀ s, run.Solid = some s →
        (run.Params.DirX.gt (.fin 0) = true ∨ run.Params.DirY.gt (.fin 0) = true
          ∨ run.Params.DirZ.gt (.fin 0) = true) →
        ∃ r, run.Rotate lib = some r ∧
          Event.solidRotate (run.posVec lib) (run.dirVec lib) (run.angleRad lib) ∈ r.2 ∧
          r.1.Solid = some (lib.Rotate (run.posVec lib) (run.dirVec lib) (run.angleRad lib) s) ∧
          r.1.DoWriteOutput = true ∧ r.1.ExitCode = run.ExitCode) := by
  refine ⟨?_, ?_, ?_⟩
  · by_cases h : (run.Params.DirX.gt (.fin 0) = true ∨ run.Params.DirY.gt (.fin 0) = true
        ∨ run.Params.DirZ.gt (.fin 0) = true)
    · have hb : (run.Params.DirX.gt (.fin 0) || run.Params.DirY.gt (.fin 0)
          || run.Params.DirZ.gt (.fin 0)) = true := by
        simpa [Bool.or_eq_true, or_assoc] using h
      cases hs : run.Solid with
      | none => simp [Run.Rotate, hb, hs, h]
      | some s =>
        simp only [Run.Rotate, hb, hs, h, not_true_eq_false, iff_false]
        rintro ⟨r, hr, -, hno, -⟩
        simp only [Bool.not_true, Bool.false_eq_true, if_false, Option.some.injEq] at hr
        subst hr
        exact hno _ _ _ (List.mem_cons_self _ _)
    · have hb : (run.Params.DirX.gt (.fin 0) || run.Params.DirY.gt (.fin 0)
          || run.Params.DirZ.gt (.fin 0)) = false := by
        simpa [Bool.or_eq_false_iff, not_or, and_assoc] using h
      simp [Run.Rotate, hb, h]
  · intro hx hy hz
    simp [Run.Rotate, hx, hy, hz, GoFloat.gt]
  · intro s hs h
    have hb : (run.Params.DirX.gt (.fin 0) || run.Params.DirY.gt (.fin 0)
        || run.Params.DirZ.gt (.fin 0)) = true := by
      simpa [Bool.or_eq_true, or_assoc] using h
    simp [Run.Rotate, hb, hs]

/-- C1, evaluated: the axis (-1, 0, 0) is rejected with exit code 20, and the
axis (1, 0, 0) makes `Run.Rotate` call `Solid.Rotate` on the sample solid. -/
theorem Rotate_fails_iff_no_positive_component_witness :
    (sampleRun { Params.zero with DirX := .fin (-1) }).Rotate sampleLib
        = some ({ sampleRun { Params.zero with DirX := .fin (-1) } with ExitCode := 20 },
            [.stderr .axisNotSet])
    ∧ ∃ r, (sampleRun { Params.zero with DirX := .fin 1 }).Rotate sampleLib = some r ∧
        Event.solidRotate ((sampleRun { Params.zero with DirX := .fin 1 }).posVec sampleLib)
          ((sampleRun { Params.zero with DirX := .fin 1 }).dirVec sampleLib)
          ((sampleRun { Params.zero with DirX := .fin 1 }).angleRad sampleLib) ∈ r.2 ∧
        r.1.Solid = some (sampleLib.Rotate
          ((sampleRun { Params.zero with DirX := .fin 1 }).posVec sampleLib)
          ((sampleRun { Params.zero with DirX := .fin 1 }).dirVec sampleLib)
          ((sampleRun { Params.zero with DirX := .fin 1 }).angleRad sampleLib) sampleSolid) ∧
        r.1.DoWriteOutput = true ∧
        r.1.ExitCode = (sampleRun { Params.zero with DirX := .fin 1 }).ExitCode :=
  ⟨(Rotate_fails_iff_no_positive_component sampleLib
      (sampleRun { Params.zero with DirX := .fin (-1) })).2.1 rfl rfl rfl,
   (Rotate_fails_iff_no_positive_component sampleLib
      (sampleRun { Params.zero with DirX := .fin 1 })).2.2 sampleSolid rfl
      (Or.inl (by simp [sampleRun, GoFloat.gt]))⟩

/-- C2 as stated fails: the sizes 2^128, 5 and 2^-151 are all greater than zero,
so `Run.FitBox` accepts them, but the box handed to
`Solid.ScaleLinearDowntoSizeBox` is their conversion to float32,
(+Inf, 5, 0), not the sizes themselves. -/
theorem fitbox_box_is_not_the_sizes :
    (wideBox.PosX.gt (.fin 0) = true ∧ wideBox.PosY.gt (.fin 0) = true
      ∧ wideBox.PosZ.gt (.fin 0) = true)
    ∧ (sampleRun wideBox).FitBox rangeLib
        = some ({ sampleRun wideBox with
                  Solid := some (rangeLib.ScaleLinearDowntoSizeBox
                    ⟨.posInf, .fin 5, .fin 0⟩ sampleSolid),
                  DoWriteOutput := true },
                [.solidScaleLinearDowntoSizeBox ⟨.posInf, .fin 5, .fin 0⟩])
    ∧ (⟨.posInf, .fin 5, .fin 0⟩ : Vec3) ≠ ⟨wideBox.PosX, wideBox.PosY, wideBox.PosZ⟩ := by
  have hx : wideBox.PosX.gt (.fin 0) = true := by
    simp [wideBox, GoFloat.gt]
  have hy : wideBox.PosY.gt (.fin 0) = true := by
    simp [wideBox, GoFloat.gt]
  have hz : wideBox.PosZ.gt (.fin 0) = true := by
    simp [wideBox, GoFloat.gt]
  have fx : float32Range wideBox.PosX = .posInf := by
    simp [wideBox, float32Range]
  have fy : float32Range wideBox.PosY = .fin 5 := by
    simp only [wideBox, float32Range]
    norm_num
  have fz : float32Range wideBox.PosZ = .fin 0 := by
    simp only [wideBox, float32Range]
    norm_num
  refine ⟨⟨hx, hy, hz⟩, ?_, ?_⟩
  · have hp : (sampleRun wideBox).Params = wideBox := rfl
    have hs : (sampleRun wideBox).Solid = some sampleSolid := rfl
    have hv : (sampleRun wideBox).posVec rangeLib = ⟨.posInf, .fin 5, .fin 0⟩ := by
      have hf : rangeLib.float32 = float32Range := rfl
      simp only [Run.posVec, hp, hf, fx, fy, fz]
    simp only [Run.FitBox, hp, hx, hy, hz, hs, hv]
    rfl
  · intro h
    have h1 : GoFloat.posInf = wideBox.PosX := congrArg Vec3.x h
    simp [wideBox] at h1

/-- C2, amended: `Run.FitBox` fails (exit code 21, no call of
`Solid.ScaleLinearDowntoSizeBox`, `DoWriteOutput` left as it was) if and only
if one of `PosX`, `PosY`, `PosZ` is not greater than zero; for sizes that are
numbers (not NaN) that is: one of them is at most zero. With a solid loaded and
all three greater than zero, the solid is scaled into the box
(float32(PosX), float32(PosY), float32(PosZ)), `DoWriteOutput` becomes true and
the exit code is unchanged; that box is exactly (PosX, PosY, PosZ) when the
conversion to float32 leaves the three sizes as they are. -/
theorem FitBox_fails_iff_some_size_not_positive (lib : Lib) (run : Run) :
    ((∃ r, run.FitBox lib = some r ∧ r.1.ExitCode = 21 ∧
          (∀ v, Event.solidScaleLinearDowntoSizeBox v ∉ r.2) ∧
          r.1.DoWriteOutput = run.DoWriteOutput ∧ r.1.Solid = run.Solid)
      ↔ (¬ run.Params.PosX.gt (.fin 0) = true ∨ ¬ run.Params.PosY.gt (.fin 0) = true
            ∨ ¬ run.Params.PosZ.gt (.fin 0) = true))
    ∧ (run.Params.PosX ≠ .nan → run.Params.PosY ≠ .nan → run.Params.PosZ ≠ .nan →
        ((¬ run.Params.PosX.gt (.fin 0) = true ∨ ¬ run.Params.PosY.gt (.fin 0) = true
            ∨ ¬ run.Params.PosZ.gt (.fin 0) = true)
          ↔ (run.Params.PosX.le (.fin 0) = true ∨ run.Params.PosY.le (.fin 0) = true
            ∨ run.Params.PosZ.le (.fin 0) = true)))
    ∧ (∀ s, run.Solid = some s →
        run.Params.PosX.gt (.fin 0) = true → run.Params.PosY.gt (.fin 0) = true →
        run.Params.PosZ.gt (.fin 0) = true →
        run.FitBox lib = some
          ({ run with
              Solid := some (lib.ScaleLinearDowntoSizeBox
                ⟨lib.float32 run.Params.PosX, lib.float32 run.Params.PosY,
                 lib.float32 run.Params.PosZ⟩ s),
              DoWriteOutput := true },
           [.solidScaleLinearDowntoSizeBox
              ⟨lib.float32 run.Params.PosX, lib.float32 run.Params.PosY,
               lib.float32 run.Params.PosZ⟩]))
    ∧ (∀ s, run.Solid = some s →
        run.Params.PosX.gt (.fin 0) = true → run.Params.PosY.gt (.fin 0) = true →
        run.Params.PosZ.gt (.fin 0) = true →
        lib.float32 run.Params.PosX = run.Params.PosX →
        lib.float32 run.Params.PosY = run.Params.PosY →
        lib.float32 run.Params.PosZ = run.Params.PosZ →
        run.FitBox lib = some
          ({ run with
              Solid := some (lib.ScaleLinearDowntoSizeBox
                ⟨run.Params.PosX, run.Params.PosY, run.Params.PosZ⟩ s),
              DoWriteOutput := true },
           [.solidScaleLinearDowntoSizeBox
              ⟨run.Params.PosX, run.Params.PosY, run.Params.PosZ⟩])) := by
  refine ⟨?_, ?_, ?_, ?_⟩
  · by_cases h : (run.Params.PosX.gt (.fin 0) && run.Params.PosY.gt (.fin 0)
        && run.Params.PosZ.gt (.fin 0)) = true
    · have h3 : (run.Params.PosX.gt (.fin 0) = true ∧ run.Params.PosY.gt (.fin 0) = true)
          ∧ run.Params.PosZ.gt (.fin 0) = true := by
        simpa [Bool.and_eq_true] using h
      cases hs : run.Solid with
      | none => simp [Run.FitBox, h, hs, h3.1.1, h3.1.2, h3.2]
      | some s => simp [Run.FitBox, h, hs, h3.1.1, h3.1.2, h3.2]
    · have hn : ¬ run.Params.PosX.gt (.fin 0) = true ∨ ¬ run.Params.PosY.gt (.fin 0) = true
          ∨ ¬ run.Params.PosZ.gt (.fin 0) = true := by
        by_contra hc
        simp only [not_or, not_not] at hc
        exact h (by simp [hc.1, hc.2.1, hc.2.2])
      have hb : (run.Params.PosX.gt (.fin 0) && run.Params.PosY.gt (.fin 0)
          && run.Params.PosZ.gt (.fin 0)) = false := by simpa using h
      simp only [Run.FitBox, hb, hn, iff_true]
      exact ⟨_, rfl, rfl, by simp, rfl, rfl⟩
  · intro hx hy hz
    have key : ∀ a : GoFloat, a ≠ .nan → (¬ a.gt (.fin 0) = true ↔ a.le (.fin 0) = true) := by
      intro a ha
      cases a <;> simp_all [GoFloat.gt, GoFloat.le]
    rw [key _ hx, key _ hy, key _ hz]
  · intro s hs hx hy hz
    simp [Run.FitBox, hx, hy, hz, hs, Run.posVec]
  · intro s hs hx hy hz fx fy fz
    simp [Run.FitBox, hx, hy, hz, hs, Run.posVec, fx, fy, fz]

/-- C2 amended, evaluated: a box of sizes 5, 5, 5 is accepted on the sample
solid, and the box handed to the library is (5, 5, 5). -/
theorem FitBox_fails_iff_some_size_not_positive_witness :
    (sampleRun { Params.zero with PosX := .fin 5, PosY := .fin 5, PosZ := .fin 5 }).FitBox
        sampleLib
      = some
        ({ sampleRun { Params.zero with PosX := .fin 5, PosY := .fin 5, PosZ := .fin 5 } with
            Solid := some (sampleLib.ScaleLinearDowntoSizeBox
              ⟨.fin 5, .fin 5, .fin 5⟩ sampleSolid),
            DoWriteOutput := true },
         [.solidScaleLinearDowntoSizeBox ⟨.fin 5, .fin 5, .fin 5⟩]) :=
  (FitBox_fails_iff_some_size_not_positive sampleLib
    (sampleRun { Params.zero with PosX := .fin 5, PosY := .fin 5, PosZ := .fin 5 })).2.2.2
    sampleSolid rfl (by simp [sampleRun, GoFloat.gt]) (by simp [sampleRun, GoFloat.gt])
    (by simp [sampleRun, GoFloat.gt]) rfl rfl rfl

/-- C3: `Run.Transform` fails (exit code 22, no call of `Solid.Transform`,
`DoWriteOutput` left as it was) if and only if `Params.Matrix` is `nil`. With a
solid loaded and a matrix present, exactly that matrix is applied to the solid
and `DoWriteOutput` becomes true. `parseMat4` gives `nil` for the empty string. -/
theorem Transform_fails_iff_matrix_nil (lib : Lib) (run : Run) :
    ((∃ r, run.Transform lib = some r ∧ r.1.ExitCode = 22 ∧
          (∀ m, Event.solidTransform m ∉ r.2) ∧
          r.1.DoWriteOutput = run.DoWriteOutput ∧ r.1.Solid = run.Solid)
      ↔ run.Params.Matrix = none)
    ∧ (∀ s m, run.Solid = some s → run.Params.Matrix = some m →
        ∃ r, run.Transform lib = some r ∧
          r.2.filter Event.isMutation = [.solidTransform m] ∧
          r.1.Solid = some (lib.Transform m s) ∧
          r.1.DoWriteOutput = true ∧ r.1.ExitCode = run.ExitCode)
    ∧ (∀ param, Run.parseMat4 lib param "" = (none, [])) := by
  refine ⟨?_, ?_, ?_⟩
  · cases hm : run.Params.Matrix with
    | none => simp [Run.Transform, hm]
    | some m =>
      cases hs : run.Solid with
      | none => simp [Run.Transform, hm, hs]
      | some s => simp [Run.Transform, hm, hs]
  · intro s m hs hm
    by_cases hsm : run.Params.ShowMatrix = true <;>
      simp [Run.Transform, hm, hs, hsm, Event.isMutation]
  · intro param
    simp [Run.parseMat4]

/-- C3, evaluated: with the identity matrix present, `Run.Transform` applies it
to the sample solid. -/
theorem Transform_fails_iff_matrix_nil_witness :
    ∃ r, (sampleRun { Params.zero with Matrix := some Mat4.identity }).Transform sampleLib
          = some r ∧
      r.2.filter Event.isMutation = [.solidTransform Mat4.identity] ∧
      r.1.Solid = some (sampleLib.Transform Mat4.identity sampleSolid) ∧
      r.1.DoWriteOutput = true ∧
      r.1.ExitCode = (sampleRun { Params.zero with Matrix := some Mat4.identity }).ExitCode :=
  (Transform_fails_iff_matrix_nil sampleLib
    (sampleRun { Params.zero with Matrix := some Mat4.identity })).2.1
    sampleSolid Mat4.identity rfl rfl

/-! ## The validation report is ordered by triangle index -/

theorem blockIndices_append (a b : List Event) :
    blockIndices (a ++ b) = blockIndices a ++ blockIndices b := by
  simp [blockIndices, List.filterMap_append]

theorem blockIndices_edgeLines (lib : Lib) (t : Triangle) (e : Nat) (ee : Option EdgeError) :
    blockIndices ((edgeLines lib t e ee).map .stdout) = [] := by
  cases ee with
  | none => simp [edgeLines, blockIndices]
  | some err =>
    simp only [edgeLines]
    split_ifs <;> (try split) <;> simp [blockIndices]

theorem blockIndices_triangleLines (lib : Lib) (a : Bool) (m : ErrorsMap) (i : Nat)
    (t : Triangle) :
    blockIndices ((triangleLines lib a m i t).map .stdout)
      = if (m.lookup (i : Int)).isSome then [i] else [] := by
  unfold triangleLines
  cases h : m.lookup (i : Int) with
  | none => simp [blockIndices]
  | some te =>
    simp only [List.map_append, blockIndices_append, blockIndices_edgeLines, List.append_nil,
      Option.isSome_some, if_true]
    split_ifs <;> simp [blockIndices]

theorem blockIndices_validateLoop (lib : Lib) (a : Bool) (m : ErrorsMap) (ts : List Triangle) :
    ∀ i, blockIndices ((validateLoop lib a m i ts).map .stdout)
      = (List.range' i ts.length).filter fun j : Nat => (m.lookup (j : Int)).isSome := by
  induction ts with
  | nil => intro i; simp [validateLoop, blockIndices]
  | cons t ts ih =>
    intro i
    simp only [validateLoop, List.map_append, blockIndices_append, blockIndices_triangleLines,
      ih, List.length_cons, List.range'_succ, List.filter_cons]
    split_ifs <;> simp

theorem lookup_isSome_iff_key (m : ErrorsMap) (k : Int) :
    (m.lookup k).isSome = true ↔ k ∈ m.map Prod.fst := by
  induction m with
  | nil => simp
  | cons e m ih =>
    obtain ⟨k1, v⟩ := e
    by_cases hk : k = k1
    · subst hk; simp [List.lookup]
    · have : (k == k1) = false := by simpa using hk
      simp [List.lookup, this, ih, hk]

/-- C8: with a solid loaded, the triangle indices of the defect blocks that
`Run.Validate` prints are, in order, the indices below `len(Solid.Triangles)`
that are keys of the report of `Solid.Validate`, in increasing order: the
sequence is strictly increasing, has no index twice, and an index is in it
exactly when it is below the number of triangles and a key of the report. The
order of the entries of the map plays no part. -/
theorem Validate_blocks_ordered_by_index (lib : Lib) (run : Run) (s : Solid)
    (hs : run.Solid = some s) :
    ∃ r, run.Validate lib = some r ∧
      blockIndices r.2 = ((List.range s.Triangles.length).filter
        fun i : Nat => ((lib.Validate s).lookup (i : Int)).isSome) ∧
      (blockIndices r.2).Pairwise (· < ·) ∧
      (blockIndices r.2).Nodup ∧
      ∀ i : Nat, i ∈ blockIndices r.2 ↔
        (i < s.Triangles.length ∧ (i : Int) ∈ (lib.Validate s).map Prod.fst) := by
  have hb : blockIndices (Event.solidIsInPositive :: ((positiveLines lib s).map .stdout
        ++ .solidValidate :: (reportLines lib s (lib.Validate s)).map .stdout))
      = ((List.range s.Triangles.length).filter
        fun i : Nat => ((lib.Validate s).lookup (i : Int)).isSome) := by
    have h1 : blockIndices ((positiveLines lib s).map .stdout) = [] := by
      unfold positiveLines; split_ifs <;> simp [blockIndices]
    have h2 : ∀ l : List Event, blockIndices (Event.solidIsInPositive :: l) = blockIndices l := by
      intro l; simp [blockIndices]
    have h3 : ∀ l : List Event, blockIndices (Event.solidValidate :: l) = blockIndices l := by
      intro l; simp [blockIndices]
    rw [h2, blockIndices_append, h1, h3, reportLines, List.map_append, blockIndices_append,
      blockIndices_validateLoop, List.range_eq_range']
    split_ifs <;> simp [blockIndices]
  refine ⟨(run, Event.solidIsInPositive :: ((positiveLines lib s).map .stdout
        ++ .solidValidate :: (reportLines lib s (lib.Validate s)).map .stdout)),
    by simp [Run.Validate, hs], hb, ?_, ?_, ?_⟩
  · rw [hb]; exact List.Pairwise.filter _ (List.pairwise_lt_range _)
  · rw [hb]; exact (List.nodup_range _).filter _
  · intro i
    rw [hb, List.mem_filter, List.mem_range, lookup_isSome_iff_key]

/-- C8, evaluated: on the sample solid of three triangles with a report for the
keys 2, 0 and 7, the blocks are printed for the indices 0 and 2, in this order. -/
theorem Validate_blocks_ordered_by_index_witness :
    ∃ r, (sampleRun Params.zero).Validate sampleLib = some r ∧
      blockIndices r.2 = ((List.range sampleSolid.Triangles.length).filter
        fun i : Nat => ((sampleLib.Validate sampleSolid).lookup (i : Int)).isSome) ∧
      (blockIndices r.2).Pairwise (· < ·) ∧
      (blockIndices r.2).Nodup ∧
      ∀ i : Nat, i ∈ blockIndices r.2 ↔
        (i < sampleSolid.Triangles.length ∧
          (i : Int) ∈ (sampleLib.Validate sampleSolid).map Prod.fst) :=
  Validate_blocks_ordered_by_index sampleLib (sampleRun Params.zero) sampleSolid rfl

/-- The lines of the report depend on the map only through its lookups, not on
the order of its entries. -/
theorem validateLoop_lookup_congr (lib : Lib) (a : Bool) (m1 m2 : ErrorsMap)
    (h : ∀ k : Int, m1.lookup k = m2.lookup k) (ts : List Triangle) :
    ∀ i, validateLoop lib a m1 i ts = validateLoop lib a m2 i ts := by
  induction ts with
  | nil => intro i; rfl
  | cons t ts ih => intro i; simp [validateLoop, triangleLines, h, ih]

/-! ## Facts about the steps of `main` -/

theorem readArgs_shape (fl : Flags) (run : Run) :
    ∃ c i o e, (Run.readArgs fl run).1
        = { run with Params := { run.Params with Command := c, InputFile := i, OutputFile := o },
                     ExitCode := e }
      ∧ (fl.NArg = 0 → c = "help" ∧ e = 10)
      ∧ (2 < fl.NArg → c = "help" ∧ e = 13)
      ∧ (fl.NArg = 2 → (run.Params.InputFile ≠ "" ∨ run.Params.OutputFile ≠ "") →
          c = "help" ∧ e = 15)
      ∧ (fl.NArg = 1 → c = fl.Arg 0 ∧ e = run.ExitCode)
      ∧ (fl.NArg = 2 → ¬ (run.Params.InputFile ≠ "" ∨ run.Params.OutputFile ≠ "") →
          c = fl.Arg 0 ∧ e = run.ExitCode)
      ∧ (∀ ev ∈ (Run.readArgs fl run).2, ∃ m, ev = Event.stderr m) := by
  unfold Run.readArgs
  by_cases h12 : fl.NArg = 1 ∨ fl.NArg = 2
  · rw [if_pos h12]
    by_cases h2 : fl.NArg = 2
    · rw [if_pos h2]
      by_cases hf : run.Params.InputFile ≠ "" ∨ run.Params.OutputFile ≠ ""
      · rw [if_pos hf]
        refine ⟨"help", run.Params.InputFile, run.Params.OutputFile, 15, rfl, ?_⟩
        simp [h2, hf, Run.usageError]
      · rw [if_neg hf]
        refine ⟨fl.Arg 0, fl.Arg 1, fl.Arg 1, run.ExitCode, rfl, ?_⟩
        simp [h2, hf]
    · rw [if_neg h2]
      have h1 : fl.NArg = 1 := by tauto
      refine ⟨fl.Arg 0, run.Params.InputFile, run.Params.OutputFile, run.ExitCode, rfl, ?_⟩
      simp [h1]
  · rw [if_neg h12]
    by_cases h0 : fl.NArg = 0
    · rw [if_pos h0]
      refine ⟨"help", run.Params.InputFile, run.Params.OutputFile, 10, rfl, ?_⟩
      simp [h0, Run.usageError]
    · rw [if_neg h0]
      have h3 : fl.NArg > 2 := by omega
      rw [if_pos h3]
      refine ⟨"help", run.Params.InputFile, run.Params.OutputFile, 13, rfl, ?_⟩
      have h1 : fl.NArg ≠ 1 := by omega
      have h2 : fl.NArg ≠ 2 := by omega
      simp [h0, h1, h2, Run.usageError]

theorem checkFormat_shape (run : Run) :
    ∃ c e, run.checkFormat.1
        = { run with Params := { run.Params with Command := c }, ExitCode := e }
      ∧ ((run.Params.OutputAscii = true ∧ run.Params.OutputBinary = true) → c = "help" ∧ e = 12)
      ∧ (¬ (run.Params.OutputAscii = true ∧ run.Params.OutputBinary = true) →
          c = run.Params.Command ∧ e = run.ExitCode)
      ∧ (∀ ev ∈ run.checkFormat.2, ∃ m, ev = Event.stderr m) := by
  unfold Run.checkFormat
  by_cases h : run.Params.OutputAscii = true ∧ run.Params.OutputBinary = true
  · have hb : (run.Params.OutputAscii && run.Params.OutputBinary) = true := by
      simp [h.1, h.2]
    rw [if_pos hb]
    refine ⟨"help", 12, rfl, ?_⟩
    simp [h.1, h.2, Run.usageError]
  · have hb : ¬ (run.Params.OutputAscii && run.Params.OutputBinary) = true := by
      simpa [Bool.and_eq_true] using h
    rw [if_neg hb]
    refine ⟨run.Params.Command, run.ExitCode, rfl, ?_⟩
    simp [h]

theorem parseMat4_events (lib : Lib) (param str : String) :
    ∀ ev ∈ (Run.parseMat4 lib param str).2, ∃ m, ev = Event.stderr m := by
  unfold Run.parseMat4
  split_ifs <;> simp

/-- What `ParseParams` leaves in the zero context: the flags with their
defaults, a command, the file names and an exit code; a usage error sets the
command to help and a code of 10, 13, 15 or 12, otherwise the command is the first
argument and the code is 0. Its effects are texts on stderr. -/
theorem ParseParams_shape (lib : Lib) (fl : Flags) :
    ∃ c i o e, (Run.zero.ParseParams lib fl).1
        = { Run.zero with
            Params := { (Run.readFlags lib fl Run.zero).Params with
                        Command := c, InputFile := i, OutputFile := o },
            ExitCode := e }
      ∧ ((flagValue fl.ascii false = true ∧ flagValue fl.binary false = true) →
          c = "help" ∧ e = 12)
      ∧ (fl.NArg = 0 → c = "help" ∧ (e = 10 ∨ e = 12)
          ∧ (¬ (flagValue fl.ascii false = true ∧ flagValue fl.binary false = true) → e = 10))
      ∧ (2 < fl.NArg → c = "help" ∧ (e = 13 ∨ e = 12)
          ∧ (¬ (flagValue fl.ascii false = true ∧ flagValue fl.binary false = true) → e = 13))
      ∧ (fl.NArg = 2 → (flagValue fl.i "" ≠ "" ∨ flagValue fl.o "" ≠ "") →
          c = "help" ∧ (e = 15 ∨ e = 12)
          ∧ (¬ (flagValue fl.ascii false = true ∧ flagValue fl.binary false = true) → e = 15))
      ∧ ((c = "help" ∧ (e = 10 ∨ e = 13 ∨ e = 15 ∨ e = 12)) ∨ (c = fl.Arg 0 ∧ e = 0))
      ∧ (∀ ev ∈ (Run.zero.ParseParams lib fl).2, ∃ m, ev = Event.stderr m) := by
  obtain ⟨c1, i1, o1, e1, hs1, a0, a3, a2, a1, a2', aev⟩ :=
    readArgs_shape fl (Run.readFlags lib fl Run.zero)
  obtain ⟨c2, e2, hs2, b1, b2, bev⟩ :=
    checkFormat_shape (Run.readArgs fl (Run.readFlags lib fl Run.zero)).1
  have hP : (Run.zero.ParseParams lib fl).1
      = (Run.readArgs fl (Run.readFlags lib fl Run.zero)).1.checkFormat.1 := rfl
  have hA : (Run.readArgs fl (Run.readFlags lib fl Run.zero)).1.Params.OutputAscii
      = flagValue fl.ascii false := by rw [hs1]; rfl
  have hB : (Run.readArgs fl (Run.readFlags lib fl Run.zero)).1.Params.OutputBinary
      = flagValue fl.binary false := by rw [hs1]; rfl
  have hC : (Run.readArgs fl (Run.readFlags lib fl Run.zero)).1.Params.Command = c1 := by
    rw [hs1]
  have hE : (Run.readArgs fl (Run.readFlags lib fl Run.zero)).1.ExitCode = e1 := by
    rw [hs1]
  have hI : (Run.readFlags lib fl Run.zero).Params.InputFile = flagValue fl.i "" := rfl
  have hO : (Run.readFlags lib fl Run.zero).Params.OutputFile = flagValue fl.o "" := rfl
  have hZ : (Run.readFlags lib fl Run.zero).ExitCode = 0 := rfl
  simp only [hA, hB, hC, hE] at b1 b2
  simp only [hI, hO, hZ] at a1 a2 a2'
  refine ⟨c2, i1, o1, e2, ?_, b1, ?_, ?_, ?_, ?_, ?_⟩
  · rw [hP, hs2, hs1]; rfl
  · intro h0
    by_cases hab : flagValue fl.ascii false = true ∧ flagValue fl.binary false = true
    · exact ⟨(b1 hab).1, Or.inr (b1 hab).2, fun hn => absurd hab hn⟩
    · obtain ⟨h1, h2⟩ := b2 hab
      obtain ⟨h3, h4⟩ := a0 h0
      exact ⟨by rw [h1, h3], Or.inl (by rw [h2, h4]), fun _ => by rw [h2, h4]⟩
  · intro h0
    by_cases hab : flagValue fl.ascii false = true ∧ flagValue fl.binary false = true
    · exact ⟨(b1 hab).1, Or.inr (b1 hab).2, fun hn => absurd hab hn⟩
    · obtain ⟨h1, h2⟩ := b2 hab
      obtain ⟨h3, h4⟩ := a3 h0
      exact ⟨by rw [h1, h3], Or.inl (by rw [h2, h4]), fun _ => by rw [h2, h4]⟩
  · intro h0 hf
    by_cases hab : flagValue fl.ascii false = true ∧ flagValue fl.binary false = true
    · exact ⟨(b1 hab).1, Or.inr (b1 hab).2, fun hn => absurd hab hn⟩
    · obtain ⟨h1, h2⟩ := b2 hab
      obtain ⟨h3, h4⟩ := a2 h0 hf
      exact ⟨by rw [h1, h3], Or.inl (by rw [h2, h4]), fun _ => by rw [h2, h4]⟩
  · by_cases hab : flagValue fl.ascii false = true ∧ flagValue fl.binary false = true
    · exact Or.inl ⟨(b1 hab).1, Or.inr (Or.inr (Or.inr (b1 hab).2))⟩
    · obtain ⟨h1, h2⟩ := b2 hab
      rw [h1, h2]
      rcases Nat.lt_or_ge 2 fl.NArg with h3 | h3
      · exact Or.inl ⟨(a3 h3).1, Or.inr (Or.inl (a3 h3).2)⟩
      · by_cases h0 : fl.NArg = 0
        · exact Or.inl ⟨(a0 h0).1, Or.inl (a0 h0).2⟩
        · by_cases h1' : fl.NArg = 1
          · exact Or.inr (a1 h1')
          · have h2' : fl.NArg = 2 := by omega
            by_cases hf : flagValue fl.i "" ≠ "" ∨ flagValue fl.o "" ≠ ""
            · exact Or.inl ⟨(a2 h2' hf).1, Or.inr (Or.inr (Or.inl (a2 h2' hf).2))⟩
            · exact Or.inr (a2' h2' hf)
  · intro ev hev
    simp only [Run.ParseParams, List.mem_append] at hev
    rcases hev with (hev | hev) | hev
    · exact parseMat4_events _ _ _ _ hev
    · exact aev _ hev
    · exact bev _ hev

/-- Without a usage error, `ParseParams` takes the first argument as the command
and leaves the exit code 0. -/
theorem ParseParams_ok (lib : Lib) (fl : Flags)
    (hn : fl.NArg = 1 ∨ (fl.NArg = 2 ∧ ¬ (flagValue fl.i "" ≠ "" ∨ flagValue fl.o "" ≠ "")))
    (hab : ¬ (flagValue fl.ascii false = true ∧ flagValue fl.binary false = true)) :
    (Run.zero.ParseParams lib fl).1.Params.Command = fl.Arg 0
    ∧ (Run.zero.ParseParams lib fl).1.ExitCode = 0 := by
  obtain ⟨c1, i1, o1, e1, hs1, -, -, -, a1, a2', -⟩ :=
    readArgs_shape fl (Run.readFlags lib fl Run.zero)
  obtain ⟨c2, e2, hs2, -, b2, -⟩ :=
    checkFormat_shape (Run.readArgs fl (Run.readFlags lib fl Run.zero)).1
  have hP : (Run.zero.ParseParams lib fl).1
      = (Run.readArgs fl (Run.readFlags lib fl Run.zero)).1.checkFormat.1 := rfl
  have hA : (Run.readArgs fl (Run.readFlags lib fl Run.zero)).1.Params.OutputAscii
      = flagValue fl.ascii false := by rw [hs1]; rfl
  have hB : (Run.readArgs fl (Run.readFlags lib fl Run.zero)).1.Params.OutputBinary
      = flagValue fl.binary false := by rw [hs1]; rfl
  have hC : (Run.readArgs fl (Run.readFlags lib fl Run.zero)).1.Params.Command = c1 := by
    rw [hs1]
  have hE : (Run.readArgs fl (Run.readFlags lib fl Run.zero)).1.ExitCode = e1 := by
    rw [hs1]
  have hI : (Run.readFlags lib fl Run.zero).Params.InputFile = flagValue fl.i "" := rfl
  have hO : (Run.readFlags lib fl Run.zero).Params.OutputFile = flagValue fl.o "" := rfl
  have hZ : (Run.readFlags lib fl Run.zero).ExitCode = 0 := rfl
  simp only [hA, hB, hC, hE] at b2
  simp only [hI, hO, hZ] at a1 a2'
  obtain ⟨h1, h2⟩ := b2 hab
  have h12 : c1 = fl.Arg 0 ∧ e1 = 0 := by
    rcases hn with h | ⟨h, hf⟩
    · exact a1 h
    · exact a2' h hf
  rw [hP, hs2]
  exact ⟨h1.trans h12.1, h2.trans h12.2⟩

theorem SetCommand_mesh (run : Run) (name : String) (h : Handler)
    (hmem : (name, h) ∈ [("copy", Handler.Copy), ("measure", .Measure), ("scale", .Scale),
      ("translate", .Translate), ("rotate", .Rotate), ("fitbox", .FitBox),
      ("transform", .Transform), ("validate", .Validate)])
    (hc : run.Params.Command = name) :
    run.SetCommand = ({ run with Command := some h }, []) := by
  simp only [List.mem_cons, Prod.mk.injEq, List.mem_singleton, List.not_mem_nil, or_false] at hmem
  rcases hmem with h1 | h1 | h1 | h1 | h1 | h1 | h1 | h1 <;>
    (obtain ⟨rfl, rfl⟩ := h1; simp [Run.SetCommand, hc])

theorem prepared_mesh (lib : Lib) (fl : Flags) (name : String) (h : Handler)
    (hmem : (name, h) ∈ [("copy", Handler.Copy), ("measure", .Measure), ("scale", .Scale),
      ("translate", .Translate), ("rotate", .Rotate), ("fitbox", .FitBox),
      ("transform", .Transform), ("validate", .Validate)])
    (hc : (Run.zero.ParseParams lib fl).1.Params.Command = name) :
    (Run.zero.ParseParams lib fl).1.ExitCode = 0
    ∧ (Run.zero.ParseParams lib fl).1.DoWriteOutput = false
    ∧ prepared lib fl
        = ({ (Run.zero.ParseParams lib fl).1 with DoReadInput := true, Command := some h },
           (Run.zero.ParseParams lib fl).2 ++ []) := by
  have hne : name ≠ "help" := by
    simp only [List.mem_cons, Prod.mk.injEq, List.mem_singleton, List.not_mem_nil,
      or_false] at hmem
    rcases hmem with h1 | h1 | h1 | h1 | h1 | h1 | h1 | h1 <;>
      (obtain ⟨rfl, -⟩ := h1; decide)
  obtain ⟨c, i, o, e, hs, -, -, -, -, hce, -⟩ := ParseParams_shape lib fl
  have hcc : (Run.zero.ParseParams lib fl).1.Params.Command = c := by rw [hs]
  have hee : (Run.zero.ParseParams lib fl).1.ExitCode = e := by rw [hs]
  have hww : (Run.zero.ParseParams lib fl).1.DoWriteOutput = false := by rw [hs]; rfl
  have he0 : e = 0 := by
    rcases hce with ⟨hh, -⟩ | ⟨-, h0⟩
    · exact absurd (hc.symm.trans (hcc.trans hh)) hne
    · exact h0
  refine ⟨hee.trans he0, hww, ?_⟩
  have hset := SetCommand_mesh
    ({ (Run.zero.ParseParams lib fl).1 with DoReadInput := true }) name h hmem hc
  unfold prepared
  rw [hset]

theorem ReadInput_cases (lib : Lib) (run : Run) :
    (∃ s ev, run.ReadInput lib = ({ run with Solid := some s }, ev, true)
      ∧ ∀ e ∈ ev, e.isMutation = false ∧ e.isWrite = false)
    ∨ (∃ ev, run.ReadInput lib = ({ run with Solid := none, ExitCode := 40 }, ev, false)
      ∧ ∀ e ∈ ev, e.isMutation = false ∧ e.isWrite = false) := by
  unfold Run.ReadInput
  split_ifs
  · cases lib.ReadAll with
    | ok s => exact Or.inl ⟨s, _, rfl, by simp [Event.isMutation, Event.isWrite]⟩
    | error e => exact Or.inr ⟨_, rfl, by simp [Event.isMutation, Event.isWrite]⟩
  · cases lib.ReadFile run.Params.InputFile with
    | ok s => exact Or.inl ⟨s, _, rfl, by simp [Event.isMutation, Event.isWrite]⟩
    | error e => exact Or.inr ⟨_, rfl, by simp [Event.isMutation, Event.isWrite]⟩

theorem stderr_events_quiet (ev : List Event) (h : ∀ e ∈ ev, ∃ m, e = Event.stderr m) :
    ∀ e ∈ ev, e.isMutation = false ∧ e.isWrite = false := by
  intro e he
  obtain ⟨m, rfl⟩ := h e he
  simp [Event.isMutation, Event.isWrite]

/-- A run of `main` with one of the eight commands that work on the solid:
either the read fails and the process exits with code 40 having changed and
written nothing, or the solid `s` is read and `main` continues with
`ExecCommand` in a context with exit code 0 and `DoWriteOutput` false. -/
theorem main_mesh (lib : Lib) (fl : Flags) (name : String) (h : Handler)
    (hmem : (name, h) ∈ [("copy", Handler.Copy), ("measure", .Measure), ("scale", .Scale),
      ("translate", .Translate), ("rotate", .Rotate), ("fitbox", .FitBox),
      ("transform", .Transform), ("validate", .Validate)])
    (hc : (Run.zero.ParseParams lib fl).1.Params.Command = name) :
    ((loaded lib fl).2.2 = false ∧ (main lib fl).status = .exit 40
      ∧ ∀ e ∈ (main lib fl).events, e.isMutation = false ∧ e.isWrite = false)
    ∨ (∃ s ev, (loaded lib fl).2.2 = true ∧ (loaded lib fl).1.Solid = some s
      ∧ (∀ e ∈ ev, e.isMutation = false ∧ e.isWrite = false)
      ∧ main lib fl = execute lib
          { Params := (Run.zero.ParseParams lib fl).1.Params, Solid := some s,
            DoReadInput := true, DoWriteOutput := false, Command := some h, ExitCode := 0 }
          ev) := by
  obtain ⟨he, hw, hp⟩ := prepared_mesh lib fl name h hmem hc
  obtain ⟨_, _, _, _, -, -, -, -, -, -, hst⟩ := ParseParams_shape lib fl
  have hq := stderr_events_quiet _ hst
  rcases ReadInput_cases lib (prepared lib fl).1 with ⟨s, ev, hr, hev⟩ | ⟨ev, hr, hev⟩
  · refine Or.inr ⟨s, (prepared lib fl).2 ++ ev, by simp [loaded, hr], by simp [loaded, hr], ?_, ?_⟩
    · intro e hmem'
      rw [hp] at hmem'
      simp only [List.append_nil, List.mem_append] at hmem'
      rcases hmem' with h1 | h1
      · exact hq e h1
      · exact hev e h1
    · have hd : (prepared lib fl).1.DoReadInput = true := by rw [hp]
      unfold main
      rw [if_pos hd, hr]
      simp only [Bool.not_true, Bool.false_eq_true, if_false]
      congr 1
      rw [hp]
      simp only [he, hw]
  · refine Or.inl ⟨by simp [loaded, hr], ?_, ?_⟩
    · have hd : (prepared lib fl).1.DoReadInput = true := by rw [hp]
      unfold main
      rw [if_pos hd, hr]
      simp
    · have hd : (prepared lib fl).1.DoReadInput = true := by rw [hp]
      unfold main
      rw [if_pos hd, hr]
      simp only [Bool.not_false, if_true]
      intro e hmem'
      rw [hp] at hmem'
      simp only [List.append_nil, List.mem_append] at hmem'
      rcases hmem' with h1 | h1
      · exact hq e h1
      · exact hev e h1

/-- A command that only reports a message and sets the exit code `c` ends the
run with that code, the solid as read, nothing changed and nothing written. -/
theorem main_mesh_rejected (lib : Lib) (fl : Flags) (name : String) (h : Handler)
    (hmem : (name, h) ∈ [("copy", Handler.Copy), ("measure", .Measure), ("scale", .Scale),
      ("translate", .Translate), ("rotate", .Rotate), ("fitbox", .FitBox),
      ("transform", .Transform), ("validate", .Validate)])
    (hc : (Run.zero.ParseParams lib fl).1.Params.Command = name) (c : Int) (m : Msg)
    (hcall : ∀ run : Run, run.Params = (Run.zero.ParseParams lib fl).1.Params →
      h.call lib run = some ({ run with ExitCode := c }, [.stderr m])) :
    (∀ e ∈ (main lib fl).events, e.isMutation = false ∧ e.isWrite = false)
    ∧ ((loaded lib fl).2.2 = true →
        (main lib fl).run.Solid = (loaded lib fl).1.Solid
        ∧ (loaded lib fl).1.Solid.isSome = true
        ∧ (main lib fl).status = .exit c) := by
  rcases main_mesh lib fl name h hmem hc with ⟨hf, -, hq⟩ | ⟨s, ev, ht, hs, hq, hm⟩
  · exact ⟨hq, fun ht => by rw [hf] at ht; cases ht⟩
  · have hex : main lib fl
        = ⟨ev ++ [.stderr m], .exit c,
            { Params := (Run.zero.ParseParams lib fl).1.Params, Solid := some s,
              DoReadInput := true, DoWriteOutput := false, Command := some h,
              ExitCode := c }⟩ := by
      rw [hm]
      simp only [execute, Run.ExecCommand]
      have hcall1 := hcall ⟨(Run.zero.ParseParams lib fl).1.Params, some s, true, false,
        some h, 0⟩ rfl
      rw [hcall1]
      simp [finish]
    rw [hex, hs]
    refine ⟨?_, fun _ => ⟨rfl, rfl, rfl⟩⟩
    intro e he
    simp only [List.mem_append, List.mem_singleton] at he
    rcases he with h1 | rfl
    · exact hq e h1
    · simp [Event.isMutation, Event.isWrite]

/-- C4: in a run of `main` whose command is rotate, fitbox or transform and whose
input check fails (no axis component greater than zero; a box size not greater
than zero; no matrix), no transformation and no `RecalculateNormals` is applied
and `WriteOutput` is not called, whatever `-fixnorm` says; and when the solid
was read, the solid at exit is the solid that was read and the process exits
with code 20, 21 or 22 respectively. -/
theorem main_rejected_input_is_atomic (lib : Lib) (fl : Flags) :
    ((Run.zero.ParseParams lib fl).1.Params.Command = "rotate" →
      ¬ ((Run.zero.ParseParams lib fl).1.Params.DirX.gt (.fin 0) = true
          ∨ (Run.zero.ParseParams lib fl).1.Params.DirY.gt (.fin 0) = true
          ∨ (Run.zero.ParseParams lib fl).1.Params.DirZ.gt (.fin 0) = true) →
      (∀ e ∈ (main lib fl).events, e.isMutation = false ∧ e.isWrite = false)
      ∧ ((loaded lib fl).2.2 = true →
          (main lib fl).run.Solid = (loaded lib fl).1.Solid
          ∧ (loaded lib fl).1.Solid.isSome = true
          ∧ (main lib fl).status = .exit 20))
    ∧ ((Run.zero.ParseParams lib fl).1.Params.Command = "fitbox" →
      ¬ ((Run.zero.ParseParams lib fl).1.Params.PosX.gt (.fin 0) = true
          ∧ (Run.zero.ParseParams lib fl).1.Params.PosY.gt (.fin 0) = true
          ∧ (Run.zero.ParseParams lib fl).1.Params.PosZ.gt (.fin 0) = true) →
      (∀ e ∈ (main lib fl).events, e.isMutation = false ∧ e.isWrite = false)
      ∧ ((loaded lib fl).2.2 = true →
          (main lib fl).run.Solid = (loaded lib fl).1.Solid
          ∧ (loaded lib fl).1.Solid.isSome = true
          ∧ (main lib fl).status = .exit 21))
    ∧ ((Run.zero.ParseParams lib fl).1.Params.Command = "transform" →
      (Run.zero.ParseParams lib fl).1.Params.Matrix = none →
      (∀ e ∈ (main lib fl).events, e.isMutation = false ∧ e.isWrite = false)
      ∧ ((loaded lib fl).2.2 = true →
          (main lib fl).run.Solid = (loaded lib fl).1.Solid
          ∧ (loaded lib fl).1.Solid.isSome = true
          ∧ (main lib fl).status = .exit 22)) := by
  refine ⟨?_, ?_, ?_⟩
  · intro hc hchk
    refine main_mesh_rejected lib fl "rotate" .Rotate (by simp) hc 20 .axisNotSet ?_
    intro run hp
    have hb : (run.Params.DirX.gt (.fin 0) || run.Params.DirY.gt (.fin 0)
        || run.Params.DirZ.gt (.fin 0)) = false := by
      rw [hp]
      simpa [Bool.or_eq_false_iff, not_or, and_assoc] using hchk
    simp [Handler.call, Run.Rotate, hb]
  · intro hc hchk
    refine main_mesh_rejected lib fl "fitbox" .FitBox (by simp) hc 21 .boxNotDefined ?_
    intro run hp
    have hb : (run.Params.PosX.gt (.fin 0) && run.Params.PosY.gt (.fin 0)
        && run.Params.PosZ.gt (.fin 0)) = false := by
      rw [hp]
      simpa [Bool.and_eq_true, and_assoc] using hchk
    simp only [Handler.call, Run.FitBox, hb]
    rfl
  · intro hc hchk
    refine main_mesh_rejected lib fl "transform" .Transform (by simp) hc 22 .noMatrix ?_
    intro run hp
    simp [Handler.call, Run.Transform, hp, hchk]

/-- C4, evaluated: `rotate` with the axis (-1, 0, 0) and `-fixnorm` on the sample
library changes and writes nothing and exits with code 20. -/
theorem main_rejected_input_is_atomic_witness :
    (∀ e ∈ (main sampleLib { Flags.command "rotate" with
          dx := some (.fin (-1)), fixnorm := some true }).events,
        e.isMutation = false ∧ e.isWrite = false)
    ∧ ((loaded sampleLib { Flags.command "rotate" with
          dx := some (.fin (-1)), fixnorm := some true }).2.2 = true →
        (main sampleLib { Flags.command "rotate" with
          dx := some (.fin (-1)), fixnorm := some true }).run.Solid
          = (loaded sampleLib { Flags.command "rotate" with
              dx := some (.fin (-1)), fixnorm := some true }).1.Solid
        ∧ (loaded sampleLib { Flags.command "rotate" with
              dx := some (.fin (-1)), fixnorm := some true }).1.Solid.isSome = true
        ∧ (main sampleLib { Flags.command "rotate" with
              dx := some (.fin (-1)), fixnorm := some true }).status = .exit 20) :=
  (main_rejected_input_is_atomic sampleLib { Flags.command "rotate" with
      dx := some (.fin (-1)), fixnorm := some true }).1 rfl
    (by simp [Run.ParseParams, Run.readArgs, Run.checkFormat, Run.readFlags, Flags.command,
          Flags.NArg, flagValue, GoFloat.gt])

/-! ## Validation and measurement are read-only -/

theorem stdout_events_quiet (l : List Out) :
    ∀ e ∈ l.map Event.stdout, e.isMutation = false ∧ e.isWrite = false := by
  intro e he
  obtain ⟨o, -, rfl⟩ := List.mem_map.1 he
  simp [Event.isMutation, Event.isWrite]

theorem Validate_readonly (lib : Lib) (run : Run) (s : Solid) (hs : run.Solid = some s) :
    ∃ ev, run.Validate lib = some (run, ev)
      ∧ ∀ e ∈ ev, e.isMutation = false ∧ e.isWrite = false := by
  refine ⟨_, by simp only [Run.Validate, hs]; rfl, ?_⟩
  intro e he
  simp only [List.mem_cons, List.mem_append] at he
  rcases he with rfl | h1 | rfl | h1
  · simp [Event.isMutation, Event.isWrite]
  · exact stdout_events_quiet _ e h1
  · simp [Event.isMutation, Event.isWrite]
  · exact stdout_events_quiet _ e h1

theorem Measure_readonly (lib : Lib) (run : Run) (s : Solid) (hs : run.Solid = some s) :
    ∃ ev, run.Measure lib = some (run, ev)
      ∧ ∀ e ∈ ev, e.isMutation = false ∧ e.isWrite = false := by
  refine ⟨_, by simp only [Run.Measure, hs]; rfl, ?_⟩
  intro e he
  simp only [List.mem_cons, List.mem_singleton, List.not_mem_nil, or_false] at he
  rcases he with rfl | rfl | rfl | rfl <;> simp [Event.isMutation, Event.isWrite]

/-- A command that leaves the context as it is ends the run with exit code 0,
the solid as read, nothing changed and nothing written. -/
theorem main_mesh_readonly (lib : Lib) (fl : Flags) (name : String) (h : Handler)
    (hmem : (name, h) ∈ [("copy", Handler.Copy), ("measure", .Measure), ("scale", .Scale),
      ("translate", .Translate), ("rotate", .Rotate), ("fitbox", .FitBox),
      ("transform", .Transform), ("validate", .Validate)])
    (hc : (Run.zero.ParseParams lib fl).1.Params.Command = name)
    (hcall : ∀ (run : Run) (s : Solid), run.Solid = some s →
      ∃ ev, h.call lib run = some (run, ev)
        ∧ ∀ e ∈ ev, e.isMutation = false ∧ e.isWrite = false) :
    (∀ e ∈ (main lib fl).events, e.isMutation = false ∧ e.isWrite = false)
    ∧ ((loaded lib fl).2.2 = true →
        (main lib fl).run.Solid = (loaded lib fl).1.Solid
        ∧ (loaded lib fl).1.Solid.isSome = true
        ∧ (main lib fl).run.DoWriteOutput = false
        ∧ (loaded lib fl).1.ExitCode = 0
        ∧ (main lib fl).status = .exit 0) := by
  have hp := (prepared_mesh lib fl name h hmem hc)
  rcases main_mesh lib fl name h hmem hc with ⟨hf, -, hq⟩ | ⟨s, ev, ht, hs, hq, hm⟩
  · exact ⟨hq, fun ht => by rw [hf] at ht; cases ht⟩
  · obtain ⟨ev1, hcall1, hq1⟩ := hcall ⟨(Run.zero.ParseParams lib fl).1.Params, some s, true,
      false, some h, 0⟩ s rfl
    have hex : main lib fl
        = ⟨ev ++ ev1, .exit 0,
            ⟨(Run.zero.ParseParams lib fl).1.Params, some s, true, false, some h, 0⟩⟩ := by
      rw [hm]
      simp only [execute, Run.ExecCommand]
      rw [hcall1]
      simp [finish]
    have hcode : (loaded lib fl).1.ExitCode = 0 := by
      rcases ReadInput_cases lib (prepared lib fl).1 with ⟨s1, ev2, hr, -⟩ | ⟨ev2, hr, -⟩
      · simp only [loaded, hr]
        rw [hp.2.2]
        exact hp.1
      · simp [loaded, hr] at ht
    rw [hex, hs]
    refine ⟨?_, fun _ => ⟨rfl, rfl, rfl, hcode, rfl⟩⟩
    intro e he
    simp only [List.mem_append] at he
    rcases he with h1 | h1
    · exact hq e h1
    · exact hq1 e h1

/-- C9: with a solid loaded, `Run.Validate` and `Run.Measure` return and leave
the context (`Solid`, `DoWriteOutput`, `ExitCode` and the rest) as it is; their
effects change and write nothing. A run of `main` with the command validate or
measure therefore never calls `WriteOutput` or `RecalculateNormals`, whatever
the flags, and after a successful read it exits with the code it had before the
command, which is 0, with the solid as read. -/
theorem Validate_Measure_readonly (lib : Lib) (fl : Flags) :
    (∀ (run : Run) (s : Solid), run.Solid = some s →
      ∃ ev, run.Validate lib = some (run, ev)
        ∧ ∀ e ∈ ev, e.isMutation = false ∧ e.isWrite = false)
    ∧ (∀ (run : Run) (s : Solid), run.Solid = some s →
      ∃ ev, run.Measure lib = some (run, ev)
        ∧ ∀ e ∈ ev, e.isMutation = false ∧ e.isWrite = false)
    ∧ (((Run.zero.ParseParams lib fl).1.Params.Command = "validate"
          ∨ (Run.zero.ParseParams lib fl).1.Params.Command = "measure") →
      (∀ e ∈ (main lib fl).events, e.isMutation = false ∧ e.isWrite = false)
      ∧ ((loaded lib fl).2.2 = true →
          (main lib fl).run.Solid = (loaded lib fl).1.Solid
          ∧ (loaded lib fl).1.Solid.isSome = true
          ∧ (main lib fl).run.DoWriteOutput = false
          ∧ (loaded lib fl).1.ExitCode = 0
          ∧ (main lib fl).status = .exit 0)) := by
  refine ⟨Validate_readonly lib, Measure_readonly lib, ?_⟩
  rintro (hc | hc)
  · exact main_mesh_readonly lib fl "validate" .Validate (by simp) hc
      (fun run s hs => Validate_readonly lib run s hs)
  · exact main_mesh_readonly lib fl "measure" .Measure (by simp) hc
      (fun run s hs => Measure_readonly lib run s hs)

/-- C9, evaluated: `validate` with `-fixnorm` and a positional filename on the
sample library changes and writes nothing and exits with code 0. -/
theorem Validate_Measure_readonly_witness :
    (∀ e ∈ (main sampleLib { Flags.command "validate" with
          fixnorm := some true, args := ["validate", "model.stl"] }).events,
        e.isMutation = false ∧ e.isWrite = false)
    ∧ ((loaded sampleLib { Flags.command "validate" with
          fixnorm := some true, args := ["validate", "model.stl"] }).2.2 = true →
        (main sampleLib { Flags.command "validate" with
          fixnorm := some true, args := ["validate", "model.stl"] }).run.Solid
          = (loaded sampleLib { Flags.command "validate" with
              fixnorm := some true, args := ["validate", "model.stl"] }).1.Solid
        ∧ (loaded sampleLib { Flags.command "validate" with
              fixnorm := some true, args := ["validate", "model.stl"] }).1.Solid.isSome = true
        ∧ (main sampleLib { Flags.command "validate" with
              fixnorm := some true, args := ["validate", "model.stl"] }).run.DoWriteOutput = false
        ∧ (loaded sampleLib { Flags.command "validate" with
              fixnorm := some true, args := ["validate", "model.stl"] }).1.ExitCode = 0
        ∧ (main sampleLib { Flags.command "validate" with
              fixnorm := some true, args := ["validate", "model.stl"] }).status = .exit 0) :=
  (Validate_Measure_readonly sampleLib { Flags.command "validate" with
      fixnorm := some true, args := ["validate", "model.stl"] }).2.2 (Or.inl rfl)

theorem filter_mutation_stdout (l : List Out) :
    (l.map Event.stdout).filter Event.isMutation = [] := by
  induction l with
  | nil => rfl
  | cons o l ih => simp [Event.isMutation]

/-! ## The matrices surfaced with `-showmat` -/

theorem GoFloat.zero_mul_fin (x : ℚ) : (GoFloat.fin 0).mul (.fin x) = .fin 0 := by
  simp [GoFloat.mul]

theorem GoFloat.one_mul_fin (x : ℚ) : (GoFloat.fin 1).mul (.fin x) = .fin x := by
  simp [GoFloat.mul]

theorem GoFloat.mul_fin_one (a : GoFloat) : a.mul (.fin 1) = a := by
  cases a <;> simp [GoFloat.mul, GoFloat.sign] <;> norm_num

theorem GoFloat.add_fin_zero (a : GoFloat) : a.add (.fin 0) = a := by
  cases a <;> simp [GoFloat.add]

theorem GoFloat.fin_zero_add (a : GoFloat) : (GoFloat.fin 0).add a = a := by
  cases a <;> simp [GoFloat.add]

/-- C7: the matrix `Run.Scale` prints with `-showmat` is the homogeneous matrix
of the scaling it applies: times the column (x, y, z, 1) it gives
(f*x, f*y, f*z, 1) for the factor f handed to `Solid.Scale`. The matrix
`Run.Translate` prints gives (x+PosX, y+PosY, z+PosZ, 1) for the offset handed to
`Solid.Translate`, when the conversion to float32 leaves the offset as it is.
For the factor 1 and the offset 0, the defaults of `-f`, `-x`, `-y`, `-z`, both
are the identity matrix. Coordinates are finite and arithmetic is exact. -/
theorem surfaced_matrix_is_homogeneous (lib : Lib) (run : Run) (s : Solid)
    (hs : run.Solid = some s) (hm : run.Params.ShowMatrix = true) :
    (∃ r, run.Scale lib = some r
        ∧ r.2.filter Event.isMutation = [.solidScale run.Params.Factor]
        ∧ matrices r.2 = [scaleMatrix run.Params.Factor]
        ∧ (∀ x y z : ℚ, (scaleMatrix run.Params.Factor).mulVec ⟨.fin x, .fin y, .fin z, .fin 1⟩
            = ⟨run.Params.Factor.mul (.fin x), run.Params.Factor.mul (.fin y),
               run.Params.Factor.mul (.fin z), .fin 1⟩)
        ∧ (∀ f x y z : ℚ, run.Params.Factor = .fin f →
            (scaleMatrix run.Params.Factor).mulVec ⟨.fin x, .fin y, .fin z, .fin 1⟩
              = ⟨.fin (f * x), .fin (f * y), .fin (f * z), .fin 1⟩))
    ∧ ((lib.float32 run.Params.PosX = run.Params.PosX
          ∧ lib.float32 run.Params.PosY = run.Params.PosY
          ∧ lib.float32 run.Params.PosZ = run.Params.PosZ) →
        ∃ r, run.Translate lib = some r
          ∧ r.2.filter Event.isMutation
              = [.solidTranslate ⟨run.Params.PosX, run.Params.PosY, run.Params.PosZ⟩]
          ∧ matrices r.2 = [translateMatrix run.Params.PosX run.Params.PosY run.Params.PosZ]
          ∧ (∀ x y z : ℚ,
              (translateMatrix run.Params.PosX run.Params.PosY run.Params.PosZ).mulVec
                  ⟨.fin x, .fin y, .fin z, .fin 1⟩
                = ⟨(GoFloat.fin x).add run.Params.PosX, (GoFloat.fin y).add run.Params.PosY,
                   (GoFloat.fin z).add run.Params.PosZ, .fin 1⟩)
          ∧ (∀ px py pz x y z : ℚ, run.Params.PosX = .fin px → run.Params.PosY = .fin py →
              run.Params.PosZ = .fin pz →
              (translateMatrix run.Params.PosX run.Params.PosY run.Params.PosZ).mulVec
                  ⟨.fin x, .fin y, .fin z, .fin 1⟩
                = ⟨.fin (x + px), .fin (y + py), .fin (z + pz), .fin 1⟩))
    ∧ scaleMatrix (.fin 1) = Mat4.identity
    ∧ translateMatrix (.fin 0) (.fin 0) (.fin 0) = Mat4.identity
    ∧ (∀ (fl : Flags) (r0 : Run), fl.f = none → fl.x = none → fl.y = none → fl.z = none →
        (Run.readFlags lib fl r0).Params.Factor = .fin 1
        ∧ (Run.readFlags lib fl r0).Params.PosX = .fin 0
        ∧ (Run.readFlags lib fl r0).Params.PosY = .fin 0
        ∧ (Run.readFlags lib fl r0).Params.PosZ = .fin 0) := by
  have hscale : ∀ (f : GoFloat) (x y z : ℚ),
      (scaleMatrix f).mulVec ⟨.fin x, .fin y, .fin z, .fin 1⟩
        = ⟨f.mul (.fin x), f.mul (.fin y), f.mul (.fin z), .fin 1⟩ := by
    intro f x y z
    simp [scaleMatrix, Mat4.mulVec, Vec4.dot, GoFloat.zero_mul_fin, GoFloat.one_mul_fin,
      GoFloat.add_fin_zero, GoFloat.fin_zero_add]
  have htrans : ∀ (a b c : GoFloat) (x y z : ℚ),
      (translateMatrix a b c).mulVec ⟨.fin x, .fin y, .fin z, .fin 1⟩
        = ⟨(GoFloat.fin x).add a, (GoFloat.fin y).add b, (GoFloat.fin z).add c, .fin 1⟩ := by
    intro a b c x y z
    simp [translateMatrix, Mat4.mulVec, Vec4.dot, GoFloat.zero_mul_fin, GoFloat.one_mul_fin,
      GoFloat.add_fin_zero, GoFloat.fin_zero_add, GoFloat.mul_fin_one]
  have hid1 : scaleMatrix (.fin 1) = Mat4.identity := by
    simp [scaleMatrix, Mat4.identity]
  have hid2 : translateMatrix (.fin 0) (.fin 0) (.fin 0) = Mat4.identity := by
    simp [translateMatrix, Mat4.identity]
  refine ⟨?_, ?_, hid1, hid2, ?_⟩
  · refine ⟨_, by simp only [Run.Scale, hs]; rfl, ?_, ?_, hscale _, ?_⟩
    · simp [hm, Event.isMutation]
    · simp [hm, matrices]
    · intro f x y z hf
      rw [hscale, hf]
      simp [GoFloat.mul]
  · rintro ⟨hx, hy, hz⟩
    refine ⟨_, by simp only [Run.Translate, hs]; rfl, ?_, ?_, htrans _ _ _, ?_⟩
    · simp [hm, Event.isMutation, Run.posVec, hx, hy, hz]
    · simp [hm, matrices]
    · intro px py pz x y z hpx hpy hpz
      rw [htrans, hpx, hpy, hpz]
      simp [GoFloat.add]
  · intro fl r0 hf hx hy hz
    simp [Run.readFlags, flagValue, hf, hx, hy, hz]

/-- C7, evaluated: with `-showmat -f 2` the matrix printed by `Run.Scale` on the
sample solid sends (1, 2, 3, 1) to (2, 4, 6, 1), and with `-x 1 -y 2 -z 3` the
matrix printed by `Run.Translate` sends (5, 5, 5, 1) to (6, 7, 8, 1). -/
theorem surfaced_matrix_is_homogeneous_witness :
    (scaleMatrix (.fin 2)).mulVec ⟨.fin 1, .fin 2, .fin 3, .fin 1⟩
        = ⟨.fin (2 * 1), .fin (2 * 2), .fin (2 * 3), .fin 1⟩
    ∧ (translateMatrix (.fin 1) (.fin 2) (.fin 3)).mulVec ⟨.fin 5, .fin 5, .fin 5, .fin 1⟩
        = ⟨.fin (5 + 1), .fin (5 + 2), .fin (5 + 3), .fin 1⟩ := by
  have h := surfaced_matrix_is_homogeneous sampleLib
    (sampleRun { Params.zero with ShowMatrix := true, Factor := .fin 2,
                                  PosX := .fin 1, PosY := .fin 2, PosZ := .fin 3 })
    sampleSolid rfl rfl
  obtain ⟨⟨_, -, -, -, -, h1⟩, h2, -⟩ := h
  obtain ⟨_, -, -, -, -, h3⟩ := h2 ⟨rfl, rfl, rfl⟩
  exact ⟨h1 2 1 2 3 rfl, h3 1 2 3 5 5 5 rfl rfl rfl⟩

/-- C6 as stated fails: `copy` with `-showmat` succeeds on the sample library
(exit code 0, the solid written) and prints no matrix at all, not one. -/
theorem copy_showmat_prints_no_matrix :
    (main sampleLib { Flags.command "copy" with showmat := some true }).status = .exit 0
    ∧ (main sampleLib { Flags.command "copy" with showmat := some true }).run.Params.ShowMatrix
        = true
    ∧ (main sampleLib { Flags.command "copy" with showmat := some true }).events
        = [.readAll, .writeAll sampleSolid]
    ∧ (matrices (main sampleLib { Flags.command "copy" with showmat := some true }).events).length
        ≠ 1 := by
  have h : main sampleLib { Flags.command "copy" with showmat := some true }
      = ⟨[.readAll, .writeAll sampleSolid], .exit 0,
          (main sampleLib { Flags.command "copy" with showmat := some true }).run⟩ := by
    rfl
  refine ⟨by rw [h], rfl, by rw [h], ?_⟩
  rw [h]
  simp [matrices]

/-- C6, amended: with a solid loaded and `ShowMatrix` set, `Run.Scale`,
`Run.Translate`, `Run.Rotate` (axis accepted) and `Run.Transform` (matrix
present) each print exactly one matrix, the one of the operation they apply to
the solid: the scaling matrix of `Factor`, the translation matrix of
(PosX, PosY, PosZ), `stl.RotationMatrix` of the arguments handed to
`Solid.Rotate`, and `Params.Matrix`. `Run.Copy`, `Run.Measure` and
`Run.Validate` apply no operation and print no matrix. -/
theorem showmat_prints_applied_matrix (lib : Lib) (run : Run) (s : Solid)
    (hs : run.Solid = some s) (hm : run.Params.ShowMatrix = true) :
    (∃ r, run.Scale lib = some r
        ∧ r.2.filter Event.isMutation = [.solidScale run.Params.Factor]
        ∧ matrices r.2 = [scaleMatrix run.Params.Factor])
    ∧ (∃ r, run.Translate lib = some r
        ∧ r.2.filter Event.isMutation = [.solidTranslate (run.posVec lib)]
        ∧ matrices r.2 = [translateMatrix run.Params.PosX run.Params.PosY run.Params.PosZ])
    ∧ ((run.Params.DirX.gt (.fin 0) = true ∨ run.Params.DirY.gt (.fin 0) = true
          ∨ run.Params.DirZ.gt (.fin 0) = true) →
        ∃ r, run.Rotate lib = some r
          ∧ r.2.filter Event.isMutation
              = [.solidRotate (run.posVec lib) (run.dirVec lib) (run.angleRad lib)]
          ∧ matrices r.2
              = [lib.RotationMatrix (run.posVec lib) (run.dirVec lib) (run.angleRad lib)])
    ∧ (∀ m, run.Params.Matrix = some m →
        ∃ r, run.Transform lib = some r
          ∧ r.2.filter Event.isMutation = [.solidTransform m]
          ∧ matrices r.2 = [m])
    ∧ (∃ r, run.Copy = some r ∧ r.2.filter Event.isMutation = [] ∧ matrices r.2 = [])
    ∧ (∃ r, run.Measure lib = some r ∧ r.2.filter Event.isMutation = [] ∧ matrices r.2 = [])
    ∧ (∃ r, run.Validate lib = some r ∧ r.2.filter Event.isMutation = []
        ∧ matrices r.2 = []) := by
  have hstd : ∀ l : List Out, matrices (l.map Event.stdout) = [] := by
    intro l
    induction l with
    | nil => rfl
    | cons o l ih => simp [matrices]
  have hstd2 : ∀ l : List Out, (l.map Event.stdout).filter Event.isMutation = [] :=
    filter_mutation_stdout
  have happ : ∀ a b : List Event, matrices (a ++ b) = matrices a ++ matrices b := by
    intro a b; simp [matrices, List.filterMap_append]
  refine ⟨?_, ?_, ?_, ?_, ?_, ?_, ?_⟩
  · exact ⟨_, by simp only [Run.Scale, hs]; rfl, by simp [hm, Event.isMutation],
      by simp [hm, matrices]⟩
  · exact ⟨_, by simp only [Run.Translate, hs]; rfl, by simp [hm, Event.isMutation],
      by simp [hm, matrices]⟩
  · intro h
    have hb : (run.Params.DirX.gt (.fin 0) || run.Params.DirY.gt (.fin 0)
        || run.Params.DirZ.gt (.fin 0)) = true := by
      simpa [Bool.or_eq_true, or_assoc] using h
    exact ⟨_, by simp only [Run.Rotate, hb, hs]; rfl, by simp [hm, Event.isMutation],
      by simp [hm, matrices]⟩
  · intro m hmat
    exact ⟨_, by simp only [Run.Transform, hmat, hs]; rfl, by simp [hm, Event.isMutation],
      by simp [hm, matrices]⟩
  · exact ⟨_, rfl, rfl, rfl⟩
  · exact ⟨_, by simp only [Run.Measure, hs]; rfl, by simp [Event.isMutation],
      by simp [matrices]⟩
  · refine ⟨_, by simp only [Run.Validate, hs]; rfl, ?_, ?_⟩
    · simp [Event.isMutation, hstd2]
    · have h1 : ∀ l, matrices (Event.solidIsInPositive :: l) = matrices l := by
        intro l; simp [matrices]
      have h2 : ∀ l, matrices (Event.solidValidate :: l) = matrices l := by
        intro l; simp [matrices]
      simp only [h1, happ, h2, hstd, List.append_nil]

/-- C6 amended, evaluated: `Run.Scale` with `-showmat -f 2` on the sample solid
prints the scaling matrix of 2 and nothing else. -/
theorem showmat_prints_applied_matrix_witness :
    ∃ r, (sampleRun { Params.zero with ShowMatrix := true, Factor := .fin 2 }).Scale sampleLib
          = some r
      ∧ r.2.filter Event.isMutation = [.solidScale (.fin 2)]
      ∧ matrices r.2 = [scaleMatrix (.fin 2)] :=
  (showmat_prints_applied_matrix sampleLib
    (sampleRun { Params.zero with ShowMatrix := true, Factor := .fin 2 }) sampleSolid rfl rfl).1

/-! ## How many operations a run applies to the solid -/

theorem call_mutations (lib : Lib) (h : Handler) (run : Run) (r : Run × List Event)
    (hr : h.call lib run = some r) :
    (r.2.filter Event.isMutation).length ≤ 1
    ∧ (∀ e ∈ r.2.filter Event.isMutation, e.isTransformation = true)
    ∧ (∀ e ∈ r.2, e.isWrite = false ∧ e.isRead = false)
    ∧ r.1.Params = run.Params := by
  cases h
  case Help =>
    simp only [Handler.call, Run.Help, Option.some.injEq] at hr
    subst hr
    simp [Event.isMutation, Event.isWrite, Event.isRead]
  case Copy =>
    simp only [Handler.call, Run.Copy, Option.some.injEq] at hr
    subst hr
    simp
  case License =>
    simp only [Handler.call, Run.License, Option.some.injEq] at hr
    subst hr
    simp [Event.isMutation, Event.isWrite, Event.isRead]
  case Measure =>
    cases hs : run.Solid with
    | none => simp [Handler.call, Run.Measure, hs] at hr
    | some s =>
      simp only [Handler.call, Run.Measure, hs, Option.some.injEq] at hr
      subst hr
      simp [Event.isMutation, Event.isWrite, Event.isRead]
  case Scale =>
    cases hs : run.Solid with
    | none => simp [Handler.call, Run.Scale, hs] at hr
    | some s =>
      simp only [Handler.call, Run.Scale, hs, Option.some.injEq] at hr
      subst hr
      by_cases hm : run.Params.ShowMatrix = true <;>
        simp [hm, Event.isMutation, Event.isTransformation, Event.isWrite, Event.isRead]
  case Translate =>
    cases hs : run.Solid with
    | none => simp [Handler.call, Run.Translate, hs] at hr
    | some s =>
      simp only [Handler.call, Run.Translate, hs, Option.some.injEq] at hr
      subst hr
      by_cases hm : run.Params.ShowMatrix = true <;>
        simp [hm, Event.isMutation, Event.isTransformation, Event.isWrite, Event.isRead]
  case Rotate =>
    by_cases hb : (run.Params.DirX.gt (.fin 0) || run.Params.DirY.gt (.fin 0)
        || run.Params.DirZ.gt (.fin 0)) = true
    · cases hs : run.Solid with
      | none => simp [Handler.call, Run.Rotate, hs, hb] at hr
      | some s =>
        simp only [Handler.call, Run.Rotate, hs, hb, Bool.not_true, Bool.false_eq_true,
          if_false, Option.some.injEq] at hr
        subst hr
        by_cases hm : run.Params.ShowMatrix = true <;>
          simp [hm, Event.isMutation, Event.isTransformation, Event.isWrite, Event.isRead]
    · have hb2 : (run.Params.DirX.gt (.fin 0) || run.Params.DirY.gt (.fin 0)
          || run.Params.DirZ.gt (.fin 0)) = false := by simpa using hb
      simp only [Handler.call, Run.Rotate, hb2, Bool.not_false, if_true,
        Option.some.injEq] at hr
      subst hr
      simp [Event.isMutation, Event.isWrite, Event.isRead]
  case FitBox =>
    by_cases hb : (run.Params.PosX.gt (.fin 0) && run.Params.PosY.gt (.fin 0)
        && run.Params.PosZ.gt (.fin 0)) = true
    · cases hs : run.Solid with
      | none => simp [Handler.call, Run.FitBox, hs, hb] at hr
      | some s =>
        simp only [Handler.call, Run.FitBox, hs, hb, Bool.not_true, Bool.false_eq_true,
          if_false, Option.some.injEq] at hr
        subst hr
        simp [Event.isMutation, Event.isTransformation, Event.isWrite, Event.isRead]
    · have hb2 : (run.Params.PosX.gt (.fin 0) && run.Params.PosY.gt (.fin 0)
          && run.Params.PosZ.gt (.fin 0)) = false := by simpa using hb
      simp only [Handler.call, Run.FitBox, hb2, Bool.not_false, if_true,
        Option.some.injEq] at hr
      subst hr
      simp [Event.isMutation, Event.isWrite, Event.isRead]
  case Transform =>
    cases hmat : run.Params.Matrix with
    | none =>
      simp only [Handler.call, Run.Transform, hmat, Option.some.injEq] at hr
      subst hr
      simp [Event.isMutation, Event.isWrite, Event.isRead]
    | some m =>
      cases hs : run.Solid with
      | none => simp [Handler.call, Run.Transform, hs, hmat] at hr
      | some s =>
        simp only [Handler.call, Run.Transform, hs, hmat, Option.some.injEq] at hr
        subst hr
        by_cases hm : run.Params.ShowMatrix = true <;>
          simp [hm, Event.isMutation, Event.isTransformation, Event.isWrite, Event.isRead]
  case Validate =>
    cases hs : run.Solid with
    | none => simp [Handler.call, Run.Validate, hs] at hr
    | some s =>
      simp only [Handler.call, Run.Validate, hs, Option.some.injEq] at hr
      subst hr
      simp only [List.filter_cons, Event.isMutation, Bool.false_eq_true, if_false,
        List.filter_append, filter_mutation_stdout, List.append_nil, List.length_nil,
        Nat.zero_le, List.not_mem_nil, false_implies, implies_true, true_and, and_true]
      intro e he
      simp only [List.mem_cons, List.mem_append, List.mem_map] at he
      rcases he with rfl | ⟨o, -, rfl⟩ | rfl | ⟨o, -, rfl⟩ <;> simp [Event.isWrite, Event.isRead]

theorem WriteOutput_events (lib : Lib) (run : Run) (r : Run × List Event × Bool)
    (h : run.WriteOutput lib = some r) :
    r.2.1.filter Event.isMutation = [] := by
  unfold Run.WriteOutput at h
  cases hs : run.Solid with
  | none => simp [hs] at h
  | some s =>
    simp only [hs] at h
    split_ifs at h <;> split at h <;>
      (simp only [Option.some.injEq] at h; subst h; simp [Event.isMutation])

/-- The end of `main` changes the solid by `RecalculateNormals` exactly when
output is to be written and `-fixnorm` is set, and by nothing else. -/
theorem finish_mutations (lib : Lib) (run : Run) (ev : List Event) :
    (finish lib run ev).events.filter Event.isMutation
      = ev.filter Event.isMutation
        ++ (if run.DoWriteOutput = true ∧ run.Params.Fixnorm = true ∧ run.Solid.isSome = true
            then [.solidRecalculateNormals] else []) := by
  unfold finish
  by_cases hw : run.DoWriteOutput = true
  · rw [if_pos hw]
    by_cases hf : run.Params.Fixnorm = true
    · rw [if_pos hf]
      cases hs : run.Solid with
      | none => simp [Run.Fixnorm, hs]
      | some s =>
        simp only [Run.Fixnorm, hs]
        cases hwo : Run.WriteOutput lib
            { run with Solid := some (lib.RecalculateNormals s) } with
        | none => simp [hw, hf, Event.isMutation]
        | some r2 => simp [hw, hf, Event.isMutation, WriteOutput_events lib _ r2 hwo]
    · rw [if_neg hf]
      cases hwo : Run.WriteOutput lib run with
      | none => simp [hwo, hf]
      | some r2 => simp [hwo, hf, WriteOutput_events lib _ r2 hwo]
  · simp [hw]

theorem execute_mutations (lib : Lib) (run : Run) (ev : List Event) :
    ∃ ts rs, (execute lib run ev).events.filter Event.isMutation
        = ev.filter Event.isMutation ++ ts ++ rs
      ∧ ts.length ≤ 1 ∧ (∀ e ∈ ts, e.isTransformation = true)
      ∧ (rs = [] ∨ (rs = [.solidRecalculateNormals] ∧ run.Params.Fixnorm = true)) := by
  unfold execute
  cases hx : run.ExecCommand lib with
  | none => exact ⟨[], [], by simp, by simp, by simp, Or.inl rfl⟩
  | some r =>
    have hcall : ∃ h : Handler, h.call lib run = some r := by
      unfold Run.ExecCommand at hx
      cases hcmd : run.Command with
      | none => simp [hcmd] at hx
      | some h => exact ⟨h, by simpa [hcmd] using hx⟩
    obtain ⟨h, hcall⟩ := hcall
    obtain ⟨h1, h2, -, h4⟩ := call_mutations lib h run r hcall
    refine ⟨r.2.filter Event.isMutation,
      (if r.1.DoWriteOutput = true ∧ r.1.Params.Fixnorm = true ∧ r.1.Solid.isSome = true
        then [.solidRecalculateNormals] else []), ?_, h1, h2, ?_⟩
    · simp only [finish_mutations, List.filter_append]
    · by_cases hc : r.1.DoWriteOutput = true ∧ r.1.Params.Fixnorm = true
          ∧ r.1.Solid.isSome = true
      · rw [if_pos hc]
        exact Or.inr ⟨rfl, by rw [← h4]; exact hc.2.1⟩
      · rw [if_neg hc]
        exact Or.inl rfl

theorem SetCommand_shape (run : Run) :
    ∃ h d e ev, run.SetCommand
        = (⟨run.Params, run.Solid, d, run.DoWriteOutput, some h, e⟩, ev)
      ∧ (∀ x ∈ ev, ∃ m, x = Event.stderr m) := by
  unfold Run.SetCommand
  by_cases h0 : run.Params.Command = "help"
  · rw [if_pos h0]; exact ⟨_, _, _, _, rfl, by simp⟩
  rw [if_neg h0]
  by_cases h1 : run.Params.Command = "copy"
  · rw [if_pos h1]; exact ⟨_, _, _, _, rfl, by simp⟩
  rw [if_neg h1]
  by_cases h2 : run.Params.Command = "measure"
  · rw [if_pos h2]; exact ⟨_, _, _, _, rfl, by simp⟩
  rw [if_neg h2]
  by_cases h3 : run.Params.Command = "scale"
  · rw [if_pos h3]; exact ⟨_, _, _, _, rfl, by simp⟩
  rw [if_neg h3]
  by_cases h4 : run.Params.Command = "translate"
  · rw [if_pos h4]; exact ⟨_, _, _, _, rfl, by simp⟩
  rw [if_neg h4]
  by_cases h5 : run.Params.Command = "rotate"
  · rw [if_pos h5]; exact ⟨_, _, _, _, rfl, by simp⟩
  rw [if_neg h5]
  by_cases h6 : run.Params.Command = "fitbox"
  · rw [if_pos h6]; exact ⟨_, _, _, _, rfl, by simp⟩
  rw [if_neg h6]
  by_cases h7 : run.Params.Command = "transform"
  · rw [if_pos h7]; exact ⟨_, _, _, _, rfl, by simp⟩
  rw [if_neg h7]
  by_cases h8 : run.Params.Command = "license"
  · rw [if_pos h8]; exact ⟨_, _, _, _, rfl, by simp⟩
  rw [if_neg h8]
  by_cases h9 : run.Params.Command = "validate"
  · rw [if_pos h9]; exact ⟨_, _, _, _, rfl, by simp⟩
  rw [if_neg h9]
  exact ⟨_, _, _, _, rfl, by simp⟩

theorem SetCommand_frame (run : Run) :
    run.SetCommand.1.Params = run.Params
    ∧ (∀ e ∈ run.SetCommand.2, ∃ m, e = Event.stderr m) := by
  obtain ⟨h, d, e, ev, hs, hev⟩ := SetCommand_shape run
  rw [hs]
  exact ⟨rfl, hev⟩

/-- The run of `main` up to `ExecCommand`: either the process has already left
with the effects `pre`, or `main` continues with `ExecCommand` in a context with
the parameters that `ParseParams` set; in `pre` nothing is changed or written. -/
theorem main_decompose (lib : Lib) (fl : Flags) :
    ∃ pre, (∀ e ∈ pre, e.isMutation = false ∧ e.isWrite = false)
      ∧ ((main lib fl).events = pre
        ∨ ∃ run, main lib fl = execute lib run pre
            ∧ run.Params = (Run.zero.ParseParams lib fl).1.Params) := by
  obtain ⟨_, _, _, _, -, -, -, -, -, -, hst⟩ := ParseParams_shape lib fl
  have hsc := SetCommand_frame ({ (Run.zero.ParseParams lib fl).1 with DoReadInput := true })
  have hpq : ∀ e ∈ (prepared lib fl).2, e.isMutation = false ∧ e.isWrite = false := by
    intro e he
    simp only [prepared, List.mem_append] at he
    rcases he with h1 | h1
    · exact stderr_events_quiet _ hst e h1
    · exact stderr_events_quiet _ hsc.2 e h1
  have hpp : (prepared lib fl).1.Params = (Run.zero.ParseParams lib fl).1.Params := hsc.1
  unfold main
  by_cases hd : (prepared lib fl).1.DoReadInput = true
  · rw [if_pos hd]
    rcases ReadInput_cases lib (prepared lib fl).1 with ⟨s, ev, hr, hev⟩ | ⟨ev, hr, hev⟩
    · refine ⟨(prepared lib fl).2 ++ ev, ?_,
        Or.inr ⟨{ (prepared lib fl).1 with Solid := some s }, by rw [hr]; simp, hpp⟩⟩
      intro e he
      rcases List.mem_append.1 he with h1 | h1
      · exact hpq e h1
      · exact hev e h1
    · refine ⟨(prepared lib fl).2 ++ ev, ?_, Or.inl (by rw [hr]; simp)⟩
      intro e he
      rcases List.mem_append.1 he with h1 | h1
      · exact hpq e h1
      · exact hev e h1
  · rw [if_neg hd]
    exact ⟨(prepared lib fl).2, hpq, Or.inr ⟨_, rfl, hpp⟩⟩

theorem filter_mutation_quiet (pre : List Event)
    (h : ∀ e ∈ pre, e.isMutation = false ∧ e.isWrite = false) :
    pre.filter Event.isMutation = [] := by
  rw [List.filter_eq_nil_iff]
  intro e he
  simp [(h e he).1]

/-- C5 as stated fails: `scale` with `-fixnorm` applies two operations to the
solid, `Solid.Scale` and then `Solid.RecalculateNormals`. -/
theorem scale_fixnorm_applies_two_operations :
    (main sampleLib { Flags.command "scale" with fixnorm := some true }).events.filter
        Event.isMutation
      = [.solidScale (.fin 1), .solidRecalculateNormals]
    ∧ ¬ ((main sampleLib { Flags.command "scale" with fixnorm := some true }).events.filter
        Event.isMutation).length ≤ 1 := by
  have h : (main sampleLib { Flags.command "scale" with fixnorm := some true }).events.filter
        Event.isMutation
      = [.solidScale (.fin 1), .solidRecalculateNormals] := by
    rfl
  exact ⟨h, by rw [h]; decide⟩

/-- A transformation whose input check passes, called on a loaded solid,
applies exactly its one operation and asks for the output to be written. -/
theorem call_applies (lib : Lib) (name : String) (h : Handler) (run : Run) (s : Solid)
    (hmem : (name, h) ∈ [("scale", Handler.Scale), ("translate", .Translate),
      ("rotate", .Rotate), ("transform", .Transform), ("fitbox", .FitBox)])
    (hs : run.Solid = some s)
    (hrot : name = "rotate" →
      (run.Params.DirX.gt (.fin 0) = true ∨ run.Params.DirY.gt (.fin 0) = true
        ∨ run.Params.DirZ.gt (.fin 0) = true))
    (htra : name = "transform" → run.Params.Matrix ≠ none)
    (hfit : name = "fitbox" →
      (run.Params.PosX.gt (.fin 0) = true ∧ run.Params.PosY.gt (.fin 0) = true
        ∧ run.Params.PosZ.gt (.fin 0) = true)) :
    ∃ r t, h.call lib run = some r ∧ r.1.DoWriteOutput = true ∧ r.1.Solid.isSome = true
      ∧ r.1.Params = run.Params ∧ t.isTransformation = true
      ∧ r.2.filter Event.isMutation = [t] := by
  simp only [List.mem_cons, Prod.mk.injEq, List.mem_singleton, List.not_mem_nil,
    or_false] at hmem
  rcases hmem with h1 | h1 | h1 | h1 | h1 <;> obtain ⟨rfl, rfl⟩ := h1
  · obtain ⟨r, hr⟩ : ∃ r, Handler.call lib .Scale run = some r := by
      simp [Handler.call, Run.Scale, hs]
    refine ⟨r, .solidScale run.Params.Factor, hr, ?_⟩
    simp only [Handler.call, Run.Scale, hs, Option.some.injEq] at hr
    subst hr
    by_cases hm : run.Params.ShowMatrix = true <;>
      simp [hm, Event.isMutation, Event.isTransformation]
  · obtain ⟨r, hr⟩ : ∃ r, Handler.call lib .Translate run = some r := by
      simp [Handler.call, Run.Translate, hs]
    refine ⟨r, .solidTranslate (run.posVec lib), hr, ?_⟩
    simp only [Handler.call, Run.Translate, hs, Option.some.injEq] at hr
    subst hr
    by_cases hm : run.Params.ShowMatrix = true <;>
      simp [hm, Event.isMutation, Event.isTransformation]
  · have hb : (run.Params.DirX.gt (.fin 0) || run.Params.DirY.gt (.fin 0)
        || run.Params.DirZ.gt (.fin 0)) = true := by
      simpa [Bool.or_eq_true, or_assoc] using hrot rfl
    obtain ⟨r, hr⟩ : ∃ r, Handler.call lib .Rotate run = some r := by
      simp [Handler.call, Run.Rotate, hs, hb]
    refine ⟨r, .solidRotate (run.posVec lib) (run.dirVec lib) (run.angleRad lib), hr, ?_⟩
    simp only [Handler.call, Run.Rotate, hs, hb, Bool.not_true, Bool.false_eq_true,
      if_false, Option.some.injEq] at hr
    subst hr
    by_cases hm : run.Params.ShowMatrix = true <;>
      simp [hm, Event.isMutation, Event.isTransformation]
  · cases hmat : run.Params.Matrix with
    | none => exact absurd hmat (htra rfl)
    | some m =>
      obtain ⟨r, hr⟩ : ∃ r, Handler.call lib .Transform run = some r := by
        simp [Handler.call, Run.Transform, hs, hmat]
      refine ⟨r, .solidTransform m, hr, ?_⟩
      simp only [Handler.call, Run.Transform, hs, hmat, Option.some.injEq] at hr
      subst hr
      by_cases hm : run.Params.ShowMatrix = true <;>
        simp [hm, Event.isMutation, Event.isTransformation]
  · obtain ⟨hx, hy, hz⟩ := hfit rfl
    have hb : (run.Params.PosX.gt (.fin 0) && run.Params.PosY.gt (.fin 0)
        && run.Params.PosZ.gt (.fin 0)) = true := by
      simp [hx, hy, hz]
    obtain ⟨r, hr⟩ : ∃ r, Handler.call lib .FitBox run = some r := by
      simp [Handler.call, Run.FitBox, hs, hb]
    refine ⟨r, .solidScaleLinearDowntoSizeBox (run.posVec lib), hr, ?_⟩
    simp only [Handler.call, Run.FitBox, hs, hb, Bool.not_true, Bool.false_eq_true,
      if_false, Option.some.injEq] at hr
    subst hr
    simp [Event.isMutation, Event.isTransformation]

/-- C5, amended: for every command line, a run of `main` applies to the solid
at most one of `Solid.Scale`, `Solid.Translate`, `Solid.Rotate`,
`Solid.Transform`, `Solid.ScaleLinearDowntoSizeBox`, and after it at most one
`Solid.RecalculateNormals`, the latter only when `-fixnorm` is set. When the
solid is read and the command is scale or translate, or rotate, transform or
fitbox with its input check passed, exactly one transformation is applied,
followed by `RecalculateNormals` exactly when `-fixnorm` is set. -/
theorem main_applies_at_most_one_transformation (lib : Lib) (fl : Flags) :
    (∃ ts rs, (main lib fl).events.filter Event.isMutation = ts ++ rs
      ∧ ts.length ≤ 1 ∧ (∀ e ∈ ts, e.isTransformation = true)
      ∧ (rs = [] ∨ (rs = [.solidRecalculateNormals] ∧ flagValue fl.fixnorm false = true)))
    ∧ (∀ (name : String) (h : Handler),
        (name, h) ∈ [("scale", Handler.Scale), ("translate", .Translate),
          ("rotate", .Rotate), ("transform", .Transform), ("fitbox", .FitBox)] →
        (Run.zero.ParseParams lib fl).1.Params.Command = name →
        (loaded lib fl).2.2 = true →
        (name = "rotate" →
          ((Run.zero.ParseParams lib fl).1.Params.DirX.gt (.fin 0) = true
            ∨ (Run.zero.ParseParams lib fl).1.Params.DirY.gt (.fin 0) = true
            ∨ (Run.zero.ParseParams lib fl).1.Params.DirZ.gt (.fin 0) = true)) →
        (name = "transform" → (Run.zero.ParseParams lib fl).1.Params.Matrix ≠ none) →
        (name = "fitbox" →
          ((Run.zero.ParseParams lib fl).1.Params.PosX.gt (.fin 0) = true
            ∧ (Run.zero.ParseParams lib fl).1.Params.PosY.gt (.fin 0) = true
            ∧ (Run.zero.ParseParams lib fl).1.Params.PosZ.gt (.fin 0) = true)) →
        ∃ t, t.isTransformation = true
          ∧ (main lib fl).events.filter Event.isMutation
              = t :: (if flagValue fl.fixnorm false = true
                      then [.solidRecalculateNormals] else [])) := by
  refine ⟨?_, ?_⟩
  · obtain ⟨pre, hq, hm | ⟨run, hm, hp⟩⟩ := main_decompose lib fl
    · exact ⟨[], [], by rw [hm, filter_mutation_quiet pre hq]; rfl, by simp, by simp,
        Or.inl rfl⟩
    · obtain ⟨ts, rs, h1, h2, h3, h4⟩ := execute_mutations lib run pre
      refine ⟨ts, rs, by rw [hm, h1, filter_mutation_quiet pre hq]; rfl, h2, h3, ?_⟩
      rcases h4 with h4 | ⟨h4, h5⟩
      · exact Or.inl h4
      · refine Or.inr ⟨h4, ?_⟩
        rw [hp] at h5
        obtain ⟨c, i, o, e, hs, -⟩ := ParseParams_shape lib fl
        rw [hs] at h5
        exact h5
  · intro name h hmem hc hread hrot htra hfit
    have hmem8 : (name, h) ∈ [("copy", Handler.Copy), ("measure", .Measure),
        ("scale", .Scale), ("translate", .Translate), ("rotate", .Rotate),
        ("fitbox", .FitBox), ("transform", .Transform), ("validate", .Validate)] := by
      simp only [List.mem_cons, Prod.mk.injEq, List.mem_singleton, List.not_mem_nil,
        or_false] at hmem
      rcases hmem with h1 | h1 | h1 | h1 | h1 <;> (obtain ⟨rfl, rfl⟩ := h1; simp)
    have hfix : (Run.zero.ParseParams lib fl).1.Params.Fixnorm = flagValue fl.fixnorm false := by
      obtain ⟨c, i, o, e, hs, -⟩ := ParseParams_shape lib fl
      rw [hs]
      rfl
    rcases main_mesh lib fl name h hmem8 hc with ⟨hf, -, -⟩ | ⟨s, ev, -, -, hq, hm⟩
    · rw [hf] at hread
      cases hread
    · obtain ⟨r, t, hcall, hw, hsome, hpar, ht, hmut⟩ := call_applies lib name h
        ⟨(Run.zero.ParseParams lib fl).1.Params, some s, true, false, some h, 0⟩ s hmem rfl
        hrot htra hfit
      refine ⟨t, ht, ?_⟩
      have hex : main lib fl = finish lib r.1 (ev ++ r.2) := by
        rw [hm]
        simp only [execute, Run.ExecCommand]
        rw [hcall]
      have hfix2 : r.1.Params.Fixnorm = flagValue fl.fixnorm false := by
        rw [hpar]
        exact hfix
      rw [hex, finish_mutations, List.filter_append, filter_mutation_quiet ev hq, hmut, hw,
        hsome, hfix2]
      simp

/-- C5 amended, evaluated: `scale` on the sample library applies `Solid.Scale`
alone, and `scale` with `-fixnorm` applies it followed by `RecalculateNormals`. -/
theorem main_applies_at_most_one_transformation_witness :
    (∃ t, t.isTransformation = true
      ∧ (main sampleLib (Flags.command "scale")).events.filter Event.isMutation
          = t :: (if flagValue (Flags.command "scale").fixnorm false = true
                  then [.solidRecalculateNormals] else []))
    ∧ (∃ t, t.isTransformation = true
      ∧ (main sampleLib { Flags.command "scale" with fixnorm := some true }).events.filter
            Event.isMutation
          = t :: (if flagValue ({ Flags.command "scale" with fixnorm := some true }).fixnorm
                      false = true
                  then [.solidRecalculateNormals] else [])) := by
  have hn : ∀ p : Prop, ("scale" = "rotate" → p) := fun p h => absurd h (by decide)
  have ht : ∀ p : Prop, ("scale" = "transform" → p) := fun p h => absurd h (by decide)
  have hf : ∀ p : Prop, ("scale" = "fitbox" → p) := fun p h => absurd h (by decide)
  have hmem : ("scale", Handler.Scale) ∈ [("scale", Handler.Scale), ("translate", .Translate),
      ("rotate", .Rotate), ("transform", .Transform), ("fitbox", .FitBox)] :=
    List.mem_cons_self _ _
  exact
    ⟨(main_applies_at_most_one_transformation sampleLib (Flags.command "scale")).2
        "scale" .Scale hmem rfl rfl (hn _) (ht _) (hf _),
     (main_applies_at_most_one_transformation sampleLib
        { Flags.command "scale" with fixnorm := some true }).2
        "scale" .Scale hmem rfl rfl (hn _) (ht _) (hf _)⟩

/-! ## Usage errors -/

/-- When `SetCommand` chooses `Help`, `main` reads and writes nothing: it
prints the help and exits with the code set so far. -/
theorem main_help (lib : Lib) (fl : Flags) (e : Int) (ev1 : List Event)
    (hev1 : ∀ x ∈ ev1, ∃ m, x = Event.stderr m)
    (hset : ({ (Run.zero.ParseParams lib fl).1 with DoReadInput := true }).SetCommand
      = (⟨(Run.zero.ParseParams lib fl).1.Params, (Run.zero.ParseParams lib fl).1.Solid, false,
          (Run.zero.ParseParams lib fl).1.DoWriteOutput, some .Help, e⟩, ev1)) :
    (main lib fl).run.Command = some .Help
    ∧ (main lib fl).run.DoReadInput = false
    ∧ (main lib fl).run.DoWriteOutput = false
    ∧ (∀ x ∈ (main lib fl).events, x.isRead = false ∧ x.isWrite = false)
    ∧ (main lib fl).status = .exit e := by
  have hprep : prepared lib fl
      = (⟨(Run.zero.ParseParams lib fl).1.Params, (Run.zero.ParseParams lib fl).1.Solid, false,
          (Run.zero.ParseParams lib fl).1.DoWriteOutput, some .Help, e⟩,
         (Run.zero.ParseParams lib fl).2 ++ ev1) := by
    unfold prepared
    rw [hset]
  have hmain : main lib fl
      = ⟨(Run.zero.ParseParams lib fl).2 ++ ev1 ++ [.stderr .helpText, .printDefaults],
          .exit e,
          ⟨(Run.zero.ParseParams lib fl).1.Params, (Run.zero.ParseParams lib fl).1.Solid, false,
            false, some .Help, e⟩⟩ := by
    unfold main
    rw [hprep]
    simp [execute, Run.ExecCommand, Handler.call, Run.Help, finish]
  obtain ⟨_, _, _, _, -, -, -, -, -, -, hst⟩ := ParseParams_shape lib fl
  rw [hmain]
  refine ⟨rfl, rfl, rfl, ?_, rfl⟩
  intro x hx
  simp only [List.mem_append, List.mem_cons, List.mem_singleton, List.not_mem_nil,
    or_false] at hx
  rcases hx with (h1 | h1) | rfl | rfl
  · obtain ⟨m, rfl⟩ := hst x h1
    simp [Event.isRead, Event.isWrite]
  · obtain ⟨m, rfl⟩ := hev1 x h1
    simp [Event.isRead, Event.isWrite]
  · simp [Event.isRead, Event.isWrite]
  · simp [Event.isRead, Event.isWrite]

/-- After a usage error recorded by `ParseParams`, `main` dispatches `Help`,
reads and writes nothing, and exits with the recorded code. -/
theorem main_usage_error (lib : Lib) (fl : Flags)
    (hc : (Run.zero.ParseParams lib fl).1.Params.Command = "help") :
    (main lib fl).run.Command = some .Help
    ∧ (main lib fl).run.DoReadInput = false
    ∧ (main lib fl).run.DoWriteOutput = false
    ∧ (∀ x ∈ (main lib fl).events, x.isRead = false ∧ x.isWrite = false)
    ∧ (main lib fl).status = .exit (Run.zero.ParseParams lib fl).1.ExitCode := by
  refine main_help lib fl _ [] (by simp) ?_
  simp [Run.SetCommand, hc]

/-- C10: when `ParseParams` records a usage error (no command; more than two
positional arguments; a positional filename together with `-i` or `-o`; both
`-ascii` and `-binary`), `main` dispatches `Help`, `DoReadInput` and
`DoWriteOutput` are false and neither `ReadInput` nor `WriteOutput` is called;
the exit code is 12 when `-ascii` and `-binary` are both set, and otherwise 10,
13 or 15 for the three other errors. Without a usage error, a command name that
is none of the ten documented ones gives the same with exit code 11. Each of
the ten documented names makes `SetCommand` choose its own handler and leave
the exit code as it is. -/
theorem usage_errors_touch_no_file (lib : Lib) (fl : Flags) :
    ((fl.NArg = 0 ∨ 2 < fl.NArg
        ∨ (fl.NArg = 2 ∧ (flagValue fl.i "" ≠ "" ∨ flagValue fl.o "" ≠ ""))
        ∨ (flagValue fl.ascii false = true ∧ flagValue fl.binary false = true)) →
      (main lib fl).run.Command = some .Help
      ∧ (main lib fl).run.DoReadInput = false
      ∧ (main lib fl).run.DoWriteOutput = false
      ∧ (∀ x ∈ (main lib fl).events, x.isRead = false ∧ x.isWrite = false)
      ∧ ((main lib fl).status = .exit 10 ∨ (main lib fl).status = .exit 13
          ∨ (main lib fl).status = .exit 15 ∨ (main lib fl).status = .exit 12)
      ∧ ((flagValue fl.ascii false = true ∧ flagValue fl.binary false = true) →
          (main lib fl).status = .exit 12)
      ∧ (¬ (flagValue fl.ascii false = true ∧ flagValue fl.binary false = true) →
          (fl.NArg = 0 → (main lib fl).status = .exit 10)
          ∧ (2 < fl.NArg → (main lib fl).status = .exit 13)
          ∧ (fl.NArg = 2 → (main lib fl).status = .exit 15)))
    ∧ (¬ (fl.NArg = 0 ∨ 2 < fl.NArg
        ∨ (fl.NArg = 2 ∧ (flagValue fl.i "" ≠ "" ∨ flagValue fl.o "" ≠ ""))
        ∨ (flagValue fl.ascii false = true ∧ flagValue fl.binary false = true)) →
      fl.Arg 0 ∉ ["copy", "fitbox", "help", "license", "measure", "rotate", "scale",
        "transform", "translate", "validate"] →
      (main lib fl).run.Command = some .Help
      ∧ (main lib fl).run.DoReadInput = false
      ∧ (main lib fl).run.DoWriteOutput = false
      ∧ (∀ x ∈ (main lib fl).events, x.isRead = false ∧ x.isWrite = false)
      ∧ (main lib fl).status = .exit 11)
    ∧ (∀ (run : Run) (name : String) (h : Handler),
        (name, h) ∈ [("copy", Handler.Copy), ("fitbox", .FitBox), ("help", .Help),
          ("license", .License), ("measure", .Measure), ("rotate", .Rotate),
          ("scale", .Scale), ("transform", .Transform), ("translate", .Translate),
          ("validate", .Validate)] →
        run.Params.Command = name →
        run.SetCommand.1.Command = some h ∧ run.SetCommand.1.ExitCode = run.ExitCode
        ∧ (run.ExitCode ≠ 11 → run.SetCommand.1.ExitCode ≠ 11)) := by
  obtain ⟨c, i, o, e, hs, hab, h0, h3, h2, hce, -⟩ := ParseParams_shape lib fl
  have hcc : (Run.zero.ParseParams lib fl).1.Params.Command = c := by rw [hs]
  have hee : (Run.zero.ParseParams lib fl).1.ExitCode = e := by rw [hs]
  refine ⟨?_, ?_, ?_⟩
  · intro herr
    have hhelp : c = "help" := by
      rcases herr with h | h | ⟨h, hf⟩ | h
      · exact (h0 h).1
      · exact (h3 h).1
      · exact (h2 h hf).1
      · exact (hab h).1
    obtain ⟨m1, m2, m3, m4, m5⟩ := main_usage_error lib fl (hcc.trans hhelp)
    rw [hee] at m5
    have hcode : e = 10 ∨ e = 13 ∨ e = 15 ∨ e = 12 := by
      rcases herr with h | h | ⟨h, hf⟩ | h
      · rcases (h0 h).2.1 with h' | h'
        · exact Or.inl h'
        · exact Or.inr (Or.inr (Or.inr h'))
      · rcases (h3 h).2.1 with h' | h'
        · exact Or.inr (Or.inl h')
        · exact Or.inr (Or.inr (Or.inr h'))
      · rcases (h2 h hf).2.1 with h' | h'
        · exact Or.inr (Or.inr (Or.inl h'))
        · exact Or.inr (Or.inr (Or.inr h'))
      · exact Or.inr (Or.inr (Or.inr (hab h).2))
    refine ⟨m1, m2, m3, m4, ?_, ?_, ?_⟩
    · rcases hcode with h | h | h | h <;> simp [m5, h]
    · intro h
      rw [m5, (hab h).2]
    · intro hn
      refine ⟨fun h => by rw [m5, (h0 h).2.2 hn], fun h => by rw [m5, (h3 h).2.2 hn], ?_⟩
      intro h
      rcases herr with h' | h' | ⟨-, hf⟩ | h'
      · omega
      · omega
      · rw [m5, (h2 h hf).2.2 hn]
      · exact absurd h' hn
  · intro hok hname
    have hab' : ¬ (flagValue fl.ascii false = true ∧ flagValue fl.binary false = true) :=
      fun h => hok (Or.inr (Or.inr (Or.inr h)))
    have hn : fl.NArg = 1
        ∨ (fl.NArg = 2 ∧ ¬ (flagValue fl.i "" ≠ "" ∨ flagValue fl.o "" ≠ "")) := by
      by_cases h1 : fl.NArg = 1
      · exact Or.inl h1
      · have h2' : fl.NArg = 2 := by
          have ha : ¬ fl.NArg = 0 := fun h => hok (Or.inl h)
          have hb : ¬ 2 < fl.NArg := fun h => hok (Or.inr (Or.inl h))
          omega
        exact Or.inr ⟨h2', fun hf => hok (Or.inr (Or.inr (Or.inl ⟨h2', hf⟩)))⟩
    obtain ⟨hcmd, hcode⟩ := ParseParams_ok lib fl hn hab'
    simp only [List.mem_cons, List.mem_singleton, List.not_mem_nil, or_false, not_or]
      at hname
    obtain ⟨n1, n2, n3, n4, n5, n6, n7, n8, n9, n10⟩ := hname
    rw [← hcmd] at n1 n2 n3 n4 n5 n6 n7 n8 n9 n10
    refine main_help lib fl 11 [.stderr .unknownCommand] (by simp) ?_
    simp [Run.SetCommand, n1, n2, n3, n4, n5, n6, n7, n8, n9, n10]
  · intro run name h hmem hc
    simp only [List.mem_cons, Prod.mk.injEq, List.mem_singleton, List.not_mem_nil,
      or_false] at hmem
    rcases hmem with h1 | h1 | h1 | h1 | h1 | h1 | h1 | h1 | h1 | h1 <;>
      (obtain ⟨rfl, rfl⟩ := h1; simp [Run.SetCommand, hc])

/-- C10, evaluated on the sample library: a command line without a command
prints the help, reads and writes nothing and exits with code 10; the unknown
command `frobnicate` does the same with exit code 11. -/
theorem usage_errors_touch_no_file_witness :
    ((main sampleLib { Flags.command "" with args := [] }).run.Command = some .Help
      ∧ (main sampleLib { Flags.command "" with args := [] }).run.DoReadInput = false
      ∧ (main sampleLib { Flags.command "" with args := [] }).run.DoWriteOutput = false
      ∧ (∀ x ∈ (main sampleLib { Flags.command "" with args := [] }).events,
          x.isRead = false ∧ x.isWrite = false)
      ∧ (main sampleLib { Flags.command "" with args := [] }).status = .exit 10)
    ∧ ((main sampleLib (Flags.command "frobnicate")).run.Command = some .Help
      ∧ (main sampleLib (Flags.command "frobnicate")).run.DoReadInput = false
      ∧ (main sampleLib (Flags.command "frobnicate")).run.DoWriteOutput = false
      ∧ (∀ x ∈ (main sampleLib (Flags.command "frobnicate")).events,
          x.isRead = false ∧ x.isWrite = false)
      ∧ (main sampleLib (Flags.command "frobnicate")).status = .exit 11) := by
  have h1 := (usage_errors_touch_no_file sampleLib { Flags.command "" with args := [] }).1
    (Or.inl rfl)
  have h2 := (usage_errors_touch_no_file sampleLib (Flags.command "frobnicate")).2.1
    (by simp [Flags.command, Flags.NArg, flagValue]) (by simp [Flags.command, Flags.Arg])
  exact ⟨⟨h1.1, h1.2.1, h1.2.2.1, h1.2.2.2.1,
    (h1.2.2.2.2.2.2 (by simp [Flags.command, flagValue])).1 rfl⟩, h2⟩

end Stltool
